import Mathlib

/- Verification of the extraction core of the idealista_extraction repository
   (src/html_processor.py), over a shallow embedding.

   Modelling conventions:
   * Python strings are Lean `String`s; string operations are defined on the
     underlying `List Char` exactly following Python semantics (`split`,
     `strip`, `replace`, `in`, `find`, slicing).  `str.upper` is modelled by
     `Char.toUpper` (faithful on the ASCII range the code manipulates).
   * Python dicts are association lists (`List (String × _)`) with Python's
     insertion-order update semantics (`dictInsert`).
   * Python `None` is `Option.none` (for optional strings) or `JValue.null`
     (for values coming from the parsed JSON blob).
   * A Python function that can raise is embedded returning `Option _`,
     `none` marking the raise. -/

namespace IdealistaExtraction

/-! ### Python string primitives -/

/-- Python `s.split(sep)` for a one-character separator, on char lists:
splits at every occurrence of `sep`, keeping empty segments
(`"".split('-') == [""]`, `"a--b".split('-') == ["a","","b"]`). -/
def pySplitChar (sep : Char) : List Char → List (List Char)
  | [] => [[]]
  | c :: rest =>
    if c = sep then [] :: pySplitChar sep rest
    else
      match pySplitChar sep rest with
      | [] => [[c]]
      | s :: ss => (c :: s) :: ss

theorem pySplitChar_ne_nil (sep : Char) (l : List Char) :
    pySplitChar sep l ≠ [] := by
  cases l with
  | nil => simp [pySplitChar]
  | cons c rest =>
    simp only [pySplitChar]
    split
    · simp
    · split <;> simp

/-- Python `s.split(sep)` for a one-character separator, on strings. -/
def pySplit (s : String) (sep : Char) : List String :=
  (pySplitChar sep s.data).map (fun l => ⟨l⟩)

theorem pySplit_ne_nil (s : String) (sep : Char) : pySplit s sep ≠ [] := by
  simp [pySplit, pySplitChar_ne_nil]

/-- Python `s.upper()` (faithful on ASCII, which is all the source feeds it). -/
def pyUpper (s : String) : String := ⟨s.data.map Char.toUpper⟩

/-! ### The Energy-Rating Decoder

Embedding of src/html_processor.py lines 326–329 (identical code at lines
122–125):

    rating_parts = rating_class[0].split('-')
    if len(rating_parts) >= 3:
        rating = rating_parts[2].upper()

with `rating` left `None` when fewer than 3 segments exist.  The input is the
CSS class token `rating_class[0]`. -/
def decode_rating (token : String) : Option String :=
  let rating_parts := pySplit token '-'
  if 3 ≤ rating_parts.length then some (pyUpper (rating_parts.getD 2 "")) else none

theorem decode_rating_eq_map (token : String) :
    decode_rating token = ((pySplit token '-')[2]?).map pyUpper := by
  by_cases h : 3 ≤ (pySplit token '-').length
  · have h2 : 2 < (pySplit token '-').length := h
    rw [List.getElem?_eq_getElem h2]
    simp [decode_rating, h, List.getD_eq_getElem, List.getElem?_eq_getElem h2]
  · have h2 : (pySplit token '-').length ≤ 2 := by omega
    rw [List.getElem?_eq_none h2]
    simp [decode_rating, h]

/-- Splitting `l₁ ++ sep :: l₂` where `l₁` is separator-free peels off `l₁`
as the first segment. -/
theorem pySplitChar_append_cons (sep : Char) (l₁ l₂ : List Char)
    (h : ∀ c ∈ l₁, c ≠ sep) :
    pySplitChar sep (l₁ ++ sep :: l₂) = l₁ :: pySplitChar sep l₂ := by
  induction l₁ with
  | nil => simp [pySplitChar]
  | cons c l₁ ih =>
    have hc : c ≠ sep := h c (by simp)
    have ih' := ih (fun d hd => h d (by simp [hd]))
    simp only [List.cons_append, pySplitChar, if_neg hc]
    rw [show l₁.append (sep :: l₂) = l₁ ++ sep :: l₂ from rfl, ih']

/-- C1: for every CSS class token, the Energy-Rating Decoder returns the third
dash-separated segment converted to uppercase when at least 3 segments exist,
and `none` (absent) when fewer than 3 exist.  `decode_rating` is a total Lean
function, so the decoder is pure and never raises for any input token. -/
theorem claim_C1_energy_decoder_third_segment (token : String) :
    decode_rating token = ((pySplit token '-')[2]?).map pyUpper :=
  decode_rating_eq_map token

/-- C2 counterexample: on the token `"icon-energy-a-b"` (form
`icon-energy-x-<letter>` with `x = "a"`, `<letter> = "b"`), the decoder
returns `"A"` — the uppercased THIRD segment — not the uppercased final
segment `"B"` that the claim promises. -/
theorem claim_C2_counterexample :
    decode_rating "icon-energy-a-b" = some "A" ∧
      decode_rating "icon-energy-a-b" ≠ some (pyUpper "b") := by
  constructor
  · rfl
  · decide

/-- C2 amended: for every CSS class token of the form
`icon-energy-<x>-<rest>` where `<x>` contains no dash, the decoder returns
`<x>` — the third dash-separated segment, not the final one — uppercased
(tokens with fewer than 3 segments yield `none`, per C1; on the real tokens
`icon-energy-<letter>-<letter>` the two coincide). -/
theorem claim_C2_amended_third_not_final (x rest : String)
    (hx : ∀ c ∈ x.data, c ≠ '-') :
    decode_rating ("icon-energy-" ++ x ++ "-" ++ rest) = some (pyUpper x) := by
  have hdata : ("icon-energy-" ++ x ++ "-" ++ rest).data
      = ['i', 'c', 'o', 'n'] ++ '-' ::
          (['e', 'n', 'e', 'r', 'g', 'y'] ++ '-' ::
            (x.data ++ '-' :: rest.data)) := by
    simp [String.data_append]
  have hsplit : pySplitChar '-' ("icon-energy-" ++ x ++ "-" ++ rest).data
      = ['i', 'c', 'o', 'n'] :: ['e', 'n', 'e', 'r', 'g', 'y'] ::
          x.data :: pySplitChar '-' rest.data := by
    rw [hdata, pySplitChar_append_cons _ _ _ (by decide),
      pySplitChar_append_cons _ _ _ (by decide),
      pySplitChar_append_cons _ _ _ hx]
  unfold decode_rating pySplit
  rw [hsplit]
  simp [List.getD]

/-- Witness for the amended C2 at the concrete token `"icon-energy-c-c"`. -/
theorem claim_C2_amended_witness :
    decode_rating ("icon-energy-" ++ "c" ++ "-" ++ "c") = some (pyUpper "c") :=
  claim_C2_amended_third_not_final "c" "c" (by decide)

/-! ### JSON values and Python dicts

The parsed `utag_data` blob is a JSON value.  Numeric literals are kept
verbatim (the extractor never computes with numbers, it only copies them);
objects are association lists in insertion order, with unique keys. -/

inductive JValue where
  | null : JValue
  | bool : Bool → JValue
  | num : String → JValue
  | str : String → JValue
  | arr : List JValue → JValue
  | obj : List (String × JValue) → JValue

/-- Python `v == lit` for a string literal `lit`: true exactly when `v` is
the equal string (a number, null, bool, list or dict never equals a str). -/
def jEqStr (v : JValue) (lit : String) : Bool :=
  match v with
  | JValue.str s => s == lit
  | _ => false

theorem jEqStr_iff (v : JValue) (lit : String) :
    jEqStr v lit = true ↔ v = JValue.str lit := by
  cases v <;> simp [jEqStr]

/-- Python dict assignment `d[k] = v`: updates in place (keeping the key's
original position) when the key exists, appends otherwise. -/
def dictInsert (d : List (String × α)) (k : String) (v : α) :
    List (String × α) :=
  match d with
  | [] => [(k, v)]
  | (k0, v0) :: rest =>
    if k0 = k then (k0, v) :: rest else (k0, v0) :: dictInsert rest k v

/-- Python dict membership / lookup (keys are unique, so first match). -/
def jLookup (d : List (String × α)) (k : String) : Option α :=
  match d with
  | [] => none
  | (k0, v0) :: rest => if k0 = k then some v0 else jLookup rest k

/-- Python `d.get(k, None)` on a JSON object. -/
def jGet (d : List (String × JValue)) (k : String) : JValue :=
  (jLookup d k).getD JValue.null

/-- Whether a JSON numeric literal denotes zero: every digit of its mantissa
is `0` (sign, decimal point and exponent ignored). -/
def numIsZero (lit : String) : Bool :=
  (lit.data.takeWhile (fun c => !(c == 'e' || c == 'E'))).all
    (fun c => c == '0' || c == '.' || c == '-' || c == '+')

/-- Python truthiness of a JSON value (`if v:`). -/
def jTruthy : JValue → Bool
  | .null => false
  | .bool b => b
  | .num lit => !numIsZero lit
  | .str s => s != ""
  | .arr xs => !xs.isEmpty
  | .obj fs => !fs.isEmpty

/-- Python `sep.join(parts)`. -/
def pyJoin (sep : String) : List String → String
  | [] => ""
  | [s] => s
  | s :: rest => s ++ sep ++ pyJoin sep rest

/-- Python `s.split('-')[-1]`: the last dash-separated segment. -/
def lastDashSeg (s : String) : String := (pySplit s '-').getLastD ""

/-- An `Option String` result written back into a JSON object (Python `None`
becomes JSON null). -/
def optStrToJ : Option String → JValue
  | some s => JValue.str s
  | none => JValue.null

/-! ### Embedded-Data Extractor: the location derivation

Embedding of src/html_processor.py lines 72–80:

    if "address" in ad_data and isinstance(ad_data["address"], dict):
        address_data = ad_data["address"]
        location_parts = []
        if address_data.get("locationLevel") == "6":
            if address_data.get("municipalityId"):
                location_parts.append(address_data.get("municipalityId").split('-')[-1])
            if address_data.get("provinceId"):
                location_parts.append(address_data.get("provinceId").split('-')[-1])
        property_info['ad_info']['location'] = ", ".join(location_parts) if location_parts else None

The outer `Option` models an uncaught exception: `.split` on a truthy
non-string value would raise `AttributeError` out of the extractor. -/

/-- The segments one truthy id contributes to `location_parts`; `none` models
the `AttributeError` raised by `.split` on a truthy non-string. -/
def idSegs (v : JValue) : Option (List String) :=
  if jTruthy v then
    match v with
    | JValue.str s => some [lastDashSeg s]
    | _ => none
  else some []

def deriveLocation (address_data : List (String × JValue)) :
    Option (Option String) :=
  if jEqStr (jGet address_data "locationLevel") "6" then
    match idSegs (jGet address_data "municipalityId"),
        idSegs (jGet address_data "provinceId") with
    | some a, some b =>
      let location_parts := a ++ b
      some (if location_parts.isEmpty then none
            else some (pyJoin ", " location_parts))
    | _, _ => none
  else some none

/-- C3: for a parsed `utag_data` whose `ad.address` is a mapping, the derived
location is (1) `"<last municipality segment>, <last province segment>"` when
`locationLevel` is the string `"6"` and both ids are present (as non-empty
strings, i.e. Python-truthy); (2) absent when `locationLevel` is anything
other than `"6"`; (3) absent when neither id is present. -/
theorem claim_C3_location_derivation (address_data : List (String × JValue)) :
    (∀ muni prov : String,
        jGet address_data "locationLevel" = JValue.str "6" →
        jGet address_data "municipalityId" = JValue.str muni → muni ≠ "" →
        jGet address_data "provinceId" = JValue.str prov → prov ≠ "" →
        deriveLocation address_data
          = some (some (lastDashSeg muni ++ ", " ++ lastDashSeg prov))) ∧
    (jGet address_data "locationLevel" ≠ JValue.str "6" →
        deriveLocation address_data = some none) ∧
    (jLookup address_data "municipalityId" = none →
        jLookup address_data "provinceId" = none →
        deriveLocation address_data = some none) := by
  refine ⟨?_, ?_, ?_⟩
  · intro muni prov hlvl hm hmne hp hpne
    have hc : jEqStr (jGet address_data "locationLevel") "6" = true := by
      rw [hlvl]; simp [jEqStr]
    have hmt : idSegs (jGet address_data "municipalityId")
        = some [lastDashSeg muni] := by
      rw [hm]; simp [idSegs, jTruthy, bne_iff_ne, hmne]
    have hpt : idSegs (jGet address_data "provinceId")
        = some [lastDashSeg prov] := by
      rw [hp]; simp [idSegs, jTruthy, bne_iff_ne, hpne]
    simp [deriveLocation, hc, hmt, hpt, pyJoin]
  · intro hlvl
    have hc : jEqStr (jGet address_data "locationLevel") "6" = false := by
      cases hb : jEqStr (jGet address_data "locationLevel") "6" with
      | true => exact absurd ((jEqStr_iff _ _).mp hb) hlvl
      | false => rfl
    simp [deriveLocation, hc]
  · intro hm hp
    have hmt : idSegs (jGet address_data "municipalityId") = some [] := by
      rw [jGet, hm]; rfl
    have hpt : idSegs (jGet address_data "provinceId") = some [] := by
      rw [jGet, hp]; rfl
    unfold deriveLocation
    rw [hmt, hpt]
    split <;> rfl

/-- Witness for C3, one concrete address per conjunct: a level-6 address with
both ids, a level-4 address, and a level-6 address with no ids at all. -/
theorem claim_C3_location_derivation_witness :
    deriveLocation
        [("locationLevel", JValue.str "6"),
         ("municipalityId", JValue.str "0-EU-ES-28-07-001-079"),
         ("provinceId", JValue.str "0-EU-ES-28")]
      = some (some ("079" ++ ", " ++ "28")) ∧
    deriveLocation [("locationLevel", JValue.str "4")] = some none ∧
    deriveLocation [("locationLevel", JValue.str "6")] = some none := by
  refine ⟨?_, ?_, ?_⟩
  · have h := (claim_C3_location_derivation
      [("locationLevel", JValue.str "6"),
       ("municipalityId", JValue.str "0-EU-ES-28-07-001-079"),
       ("provinceId", JValue.str "0-EU-ES-28")]).1
      "0-EU-ES-28-07-001-079" "0-EU-ES-28"
      (by rfl) (by rfl) (by decide) (by rfl) (by decide)
    rw [h]
    have h1 : lastDashSeg "0-EU-ES-28-07-001-079" = "079" := by rfl
    have h2 : lastDashSeg "0-EU-ES-28" = "28" := by rfl
    rw [h1, h2]
  · refine (claim_C3_location_derivation
      [("locationLevel", JValue.str "4")]).2.1 ?_
    intro h
    have h4 : JValue.str "4" = JValue.str "6" := h
    injection h4 with h46
    exact absurd h46 (by decide)
  · exact (claim_C3_location_derivation
      [("locationLevel", JValue.str "6")]).2.2 (by rfl) (by rfl)

/-! ### Embedded-Data Extractor: the `ad_info` group

Embedding of src/html_processor.py lines 64–92.  The five fixed scalar
fields are always assigned (`ad_data.get(k, None)`), so an absent source key
yields the key bound to JSON null — not an absent key. -/

/-- Lines 66–70: the five fixed scalar fields, each `ad_data.get(k, None)`. -/
def adBase (ad_data : List (String × JValue)) : List (String × JValue) :=
  [("id", jGet ad_data "id"),
   ("operation", jGet ad_data "operation"),
   ("typology", jGet ad_data "typology"),
   ("price", jGet ad_data "price"),
   ("builtType", jGet ad_data "builtType")]

/-- Lines 82–92 pattern: `if k in ad_data and isinstance(ad_data[k], dict):`
copy the mapping verbatim under the same key. -/
def copyIfObj (ad_data : List (String × JValue)) (k : String) :
    List (String × JValue) :=
  match jLookup ad_data k with
  | some (JValue.obj fs) => [(k, JValue.obj fs)]
  | _ => []

/-- Lines 72–92: the assignments made after the five fixed fields, in
program order (location, then condition/media/owner/agency). -/
def adExtras (ad_data : List (String × JValue)) :
    Option (List (String × JValue)) :=
  let tail := copyIfObj ad_data "condition" ++ copyIfObj ad_data "media" ++
    copyIfObj ad_data "owner" ++ copyIfObj ad_data "agency"
  match jLookup ad_data "address" with
  | some (JValue.obj address_data) =>
    (deriveLocation address_data).map
      (fun loc => ("location", optStrToJ loc) :: tail)
  | _ => some tail

/-- Lines 64–92: the whole `ad_info` group built from the parsed `ad`
object.  All keys assigned are distinct, so the sequence of dict assignments
is the concatenation of the entries in program order. -/
def buildAdInfo (ad_data : List (String × JValue)) :
    Option (List (String × JValue)) :=
  (adExtras ad_data).map (fun extras => adBase ad_data ++ extras)

theorem jLookup_append_left {α : Type} (l₁ l₂ : List (String × α))
    (k : String) (v : α) (h : jLookup l₁ k = some v) :
    jLookup (l₁ ++ l₂) k = some v := by
  induction l₁ with
  | nil => simp [jLookup] at h
  | cons p rest ih =>
    obtain ⟨k0, v0⟩ := p
    by_cases hk : k0 = k
    · rw [jLookup, if_pos hk] at h
      simp [jLookup, hk, h]
    · rw [jLookup, if_neg hk] at h
      simp [jLookup, hk, ih h]

/-- C6 counterexample: parse an `ad` object that has none of the five fixed
scalar fields (the empty object).  The resulting `ad_info` binds every one
of the five keys to JSON null — the keys are present with a null
placeholder, not absent as the claim states. -/
theorem claim_C6_counterexample :
    buildAdInfo []
      = some [("id", JValue.null), ("operation", JValue.null),
              ("typology", JValue.null), ("price", JValue.null),
              ("builtType", JValue.null)] ∧
    jLookup ((buildAdInfo []).getD []) "id" = some JValue.null := by
  constructor <;> rfl

/-- C6 amended: each of the five fixed scalar fields absent from the source
`ad` object appears in the resulting `ad_info` bound to JSON null (never to
a zero or empty-string placeholder, and never dropped). -/
theorem claim_C6_amended_null_placeholder (ad_data : List (String × JValue))
    (k : String) (hk : k ∈ ["id", "operation", "typology", "price", "builtType"])
    (habs : jLookup ad_data k = none) (d : List (String × JValue))
    (hd : buildAdInfo ad_data = some d) :
    jLookup d k = some JValue.null := by
  obtain ⟨extras, hex, rfl⟩ :
      ∃ extras, adExtras ad_data = some extras ∧ d = adBase ad_data ++ extras := by
    unfold buildAdInfo at hd
    cases hx : adExtras ad_data with
    | none => rw [hx] at hd; simp at hd
    | some extras => rw [hx] at hd; simp at hd; exact ⟨extras, rfl, hd.symm⟩
  have hnull : jGet ad_data k = JValue.null := by
    rw [jGet, habs]; rfl
  apply jLookup_append_left
  fin_cases hk <;> simp [adBase, jLookup, hnull]

/-- Witness for the amended C6: the empty `ad` object misses the key
`"operation"`, and the resulting `ad_info` binds it to null. -/
theorem claim_C6_amended_witness :
    jLookup ((buildAdInfo []).getD []) "operation" = some JValue.null :=
  claim_C6_amended_null_placeholder [] "operation" (by decide) (by rfl)
    ((buildAdInfo []).getD []) (by rfl)

/-! ### A model of Python `json.loads`

Recursive-descent parser over the character list, returning `none` exactly
where `json.loads` raises `JSONDecodeError`: JSON values with the four JSON
whitespace characters, strict number grammar (no leading zeros), strings
with the standard escapes (`\uXXXX` decoded code-unit-wise), Python's
`NaN`/`Infinity`/`-Infinity` extensions, duplicate object keys resolved
last-wins, and the whole input consumed.  Fuel (`input length + 1`) bounds
the nesting depth, which is always below the input length. -/

def skipWs (l : List Char) : List Char :=
  l.dropWhile (fun c => c == ' ' || c == '\t' || c == '\n' || c == '\r')

def hexVal (c : Char) : Option Nat :=
  if c.isDigit then some (c.toNat - 48)
  else if 'a' ≤ c && c ≤ 'f' then some (c.toNat - 87)
  else if 'A' ≤ c && c ≤ 'F' then some (c.toNat - 55)
  else none

def escChar (c : Char) : Option Char :=
  match c with
  | '"' => some '"'
  | '\\' => some '\\'
  | '/' => some '/'
  | 'b' => some (Char.ofNat 8)
  | 'f' => some (Char.ofNat 12)
  | 'n' => some '\n'
  | 'r' => some '\r'
  | 't' => some '\t'
  | _ => none

def parseStringRest : List Char → List Char → Option (String × List Char)
  | acc, '"' :: rest => some (⟨acc.reverse⟩, rest)
  | acc, '\\' :: 'u' :: h1 :: h2 :: h3 :: h4 :: rest =>
    match hexVal h1, hexVal h2, hexVal h3, hexVal h4 with
    | some a, some b, some c, some d =>
      parseStringRest (Char.ofNat (((a * 16 + b) * 16 + c) * 16 + d) :: acc) rest
    | _, _, _, _ => none
  | acc, '\\' :: e :: rest =>
    match escChar e with
    | some c => parseStringRest (c :: acc) rest
    | none => none
  | _, '\\' :: [] => none
  | acc, c :: rest => if c.toNat < 32 then none else parseStringRest (c :: acc) rest
  | _, [] => none

def digitsOf (l : List Char) : List Char × List Char :=
  (l.takeWhile Char.isDigit, l.dropWhile Char.isDigit)

def parseExp (pre : List Char) (l : List Char) : Option (String × List Char) :=
  match l with
  | e :: rest =>
    if e == 'e' || e == 'E' then
      let (sign, r1) := match rest with
        | '+' :: r => (['+'], r)
        | '-' :: r => (['-'], r)
        | _ => (([] : List Char), rest)
      let (ds, r2) := digitsOf r1
      if ds.isEmpty then none else some (⟨pre ++ e :: sign ++ ds⟩, r2)
    else some (⟨pre⟩, l)
  | [] => some (⟨pre⟩, l)

def parseFracExp (pre : List Char) (l : List Char) : Option (String × List Char) :=
  match l with
  | '.' :: rest =>
    let (ds, r1) := digitsOf rest
    if ds.isEmpty then none else parseExp (pre ++ '.' :: ds) r1
  | _ => parseExp pre l

def parseNumber (l : List Char) : Option (String × List Char) :=
  let (sign, l1) : List Char × List Char := match l with
    | '-' :: r => (['-'], r)
    | _ => ([], l)
  match l1 with
  | '0' :: r => parseFracExp (sign ++ ['0']) r
  | c :: _ =>
    if c.isDigit then
      let (ds, r) := digitsOf l1
      parseFracExp (sign ++ ds) r
    else none
  | [] => none

mutual
def parseValue : Nat → List Char → Option (JValue × List Char)
  | 0, _ => none
  | fuel + 1, l =>
    match skipWs l with
    | '{' :: rest =>
      match skipWs rest with
      | '}' :: r2 => some (JValue.obj [], r2)
      | r2 => parseMembers fuel [] r2
    | '[' :: rest =>
      match skipWs rest with
      | ']' :: r2 => some (JValue.arr [], r2)
      | r2 => parseElems fuel [] r2
    | '"' :: rest => (parseStringRest [] rest).map (fun p => (JValue.str p.1, p.2))
    | 't' :: 'r' :: 'u' :: 'e' :: rest => some (JValue.bool true, rest)
    | 'f' :: 'a' :: 'l' :: 's' :: 'e' :: rest => some (JValue.bool false, rest)
    | 'n' :: 'u' :: 'l' :: 'l' :: rest => some (JValue.null, rest)
    | 'N' :: 'a' :: 'N' :: rest => some (JValue.num "NaN", rest)
    | 'I' :: 'n' :: 'f' :: 'i' :: 'n' :: 'i' :: 't' :: 'y' :: rest =>
      some (JValue.num "Infinity", rest)
    | '-' :: 'I' :: 'n' :: 'f' :: 'i' :: 'n' :: 'i' :: 't' :: 'y' :: rest =>
      some (JValue.num "-Infinity", rest)
    | l2 => (parseNumber l2).map (fun p => (JValue.num p.1, p.2))

def parseMembers : Nat → List (String × JValue) → List Char → Option (JValue × List Char)
  | 0, _, _ => none
  | fuel + 1, acc, l =>
    match skipWs l with
    | '"' :: rest =>
      match parseStringRest [] rest with
      | none => none
      | some (k, r1) =>
        match skipWs r1 with
        | ':' :: r2 =>
          match parseValue fuel r2 with
          | none => none
          | some (v, r3) =>
            match skipWs r3 with
            | ',' :: r4 => parseMembers fuel (dictInsert acc k v) r4
            | '}' :: r4 => some (JValue.obj (dictInsert acc k v), r4)
            | _ => none
        | _ => none
    | _ => none

def parseElems : Nat → List JValue → List Char → Option (JValue × List Char)
  | 0, _, _ => none
  | fuel + 1, acc, l =>
    match parseValue fuel l with
    | none => none
    | some (v, r) =>
      match skipWs r with
      | ',' :: r2 => parseElems fuel (acc ++ [v]) r2
      | ']' :: r2 => some (JValue.arr (acc ++ [v]), r2)
      | _ => none
end

/-- Python `json.loads` (returns `none` where it raises `JSONDecodeError`). -/
def json_loads (s : String) : Option JValue :=
  match parseValue (s.data.length + 1) s.data with
  | some (v, rest) => if (skipWs rest).isEmpty then some v else none
  | none => none

/-! ### Python substring search and slicing -/

def findSubAux (sub : List Char) : List Char → Nat → Option Nat
  | [], i => if sub.isEmpty then some i else none
  | l@(_ :: rest), i => if sub.isPrefixOf l then some i else findSubAux sub rest (i + 1)

/-- Python `s.find(sub)`: index of the first occurrence (`none` for `-1`). -/
def strFind (s sub : String) : Option Nat := findSubAux sub.data s.data 0

/-- Python `s.find(c, start)` for a single character. -/
def charFindFrom (s : String) (c : Char) (start : Nat) : Option Nat :=
  ((s.data.drop start).findIdx? (· == c)).map (· + start)

/-- Python `s[a:b]` for `0 ≤ a ≤ b ≤ len s` (the only way the source uses it). -/
def strSlice (s : String) (a b : Nat) : String := ⟨(s.data.drop a).take (b - a)⟩

/-! ### Embedded-Data Extractor: the `utag_data` stage

Embedding of src/html_processor.py lines 48–95, starting from the text
content of the located script tag (the DOM query that finds the tag is
abstracted to its result, the script's text).  `none` models an uncaught
exception escaping the extractor. -/

structure UtagResult where
  characteristics : List (String × JValue)
  ad_info : List (String × JValue)

/-- Lines 60–62: copy `utag_data["ad"]["characteristics"]` verbatim if
present.  The dict comprehension over a non-mapping value is out of model
(it raises for null/str/num, and builds a non-string-keyed dict for exotic
int lists); `none` stands for that corner. -/
def buildCharacteristics (ad_data : List (String × JValue)) :
    Option (List (String × JValue)) :=
  match jLookup ad_data "characteristics" with
  | none => some []
  | some (JValue.obj cs) => some cs
  | some _ => none

/-- Lines 60–92: both groups from the parsed JSON value.  A non-object
top-level value or a non-object `ad` member leaves both groups empty. -/
def buildGroups (utag_data : JValue) : Option UtagResult :=
  match utag_data with
  | JValue.obj fs =>
    match jLookup fs "ad" with
    | some (JValue.obj ad_data) =>
      match buildCharacteristics ad_data, buildAdInfo ad_data with
      | some cs, some ai => some ⟨cs, ai⟩
      | _, _ => none
    | _ => some ⟨[], []⟩
  | _ => some ⟨[], []⟩

/-- Lines 48–95: locate `var utag_data = `, slice up to the next `;`, parse,
and build the two groups.  A missing marker, a missing `;` or a JSON parse
failure each yields the record with empty groups (the parse failure is the
one logged case). -/
def processUtagScript (script_content : String) : Option UtagResult :=
  match strFind script_content "var utag_data = " with
  | none => some ⟨[], []⟩
  | some i =>
    let start := i + "var utag_data = ".length
    match charFindFrom script_content ';' start with
    | none => some ⟨[], []⟩
    | some e =>
      match json_loads (strSlice script_content start e) with
      | none => some ⟨[], []⟩
      | some utag_data => buildGroups utag_data

/-- C5: if the text between `var utag_data = ` and the next `;` is not valid
JSON, the extractor does not raise and returns empty `characteristics` and
`ad_info` groups; if no `;` follows the marker, extraction is silently
skipped with the same empty-group result. -/
theorem claim_C5_malformed_json_empty_groups (script_content : String) :
    (∀ i e, strFind script_content "var utag_data = " = some i →
      charFindFrom script_content ';' (i + "var utag_data = ".length) = some e →
      json_loads (strSlice script_content (i + "var utag_data = ".length) e) = none →
      processUtagScript script_content = some ⟨[], []⟩) ∧
    (∀ i, strFind script_content "var utag_data = " = some i →
      charFindFrom script_content ';' (i + "var utag_data = ".length) = none →
      processUtagScript script_content = some ⟨[], []⟩) := by
  constructor
  · intro i e hfind hsemi hbad
    simp only [processUtagScript, hfind, hsemi, hbad]
  · intro i hfind hnosemi
    simp only [processUtagScript, hfind, hnosemi]

/-- Witness for C5: a script whose blob `{broken` is not JSON, and a script
with no `;` after the marker; both yield the empty-group record. -/
theorem claim_C5_witness :
    processUtagScript "var utag_data = \x7bbroken;" = some ⟨[], []⟩ ∧
    processUtagScript "var utag_data = {}" = some ⟨[], []⟩ := by
  constructor
  · exact (claim_C5_malformed_json_empty_groups "var utag_data = \x7bbroken;").1
      0 23 (by rfl) (by rfl) (by rfl)
  · exact (claim_C5_malformed_json_empty_groups "var utag_data = {}").2
      0 (by rfl) (by rfl)

/-! ### The Flattener

Embedding of src/html_processor.py lines 132–154 (`flatten_property_info`).
The Python function loops over the sections of the grouped record and
assigns each constructed key into a fresh dict; we generate the sequence of
assignments in program order (`entryList`) and fold them through the dict
assignment `dictInsert`. -/

/-- Python decimal rendering `str(i)` of a natural number (used for the
f-string index `{i}` of list entries). -/
def natReprAux : Nat → Nat → List Char
  | 0, _ => []
  | fuel + 1, n =>
    if n = 0 then [] else natReprAux fuel (n / 10) ++ [Char.ofNat (48 + n % 10)]

def natRepr (n : Nat) : String := if n = 0 then "0" else ⟨natReprAux n n⟩

/-- Python `enumerate(xs)` starting at `start`. -/
def pyEnum (start : Nat) : List α → List (Nat × α)
  | [] => []
  | x :: xs => (start, x) :: pyEnum (start + 1) xs

/-- The inner loop body of `flatten_property_info` (lines 140–148): the
assignments produced for one group member `key ↦ value`. -/
def entryOfValue (sect key : String) : JValue → List (String × JValue)
  | JValue.arr items =>
    (pyEnum 0 items).map (fun p => (sect ++ "_" ++ key ++ "_" ++ natRepr p.1, p.2))
  | JValue.obj nested =>
    nested.map (fun p => (sect ++ "_" ++ key ++ "_" ++ p.1, p.2))
  | v => [(sect ++ "_" ++ key, v)]

/-- The outer loop body (lines 138–153): the assignments produced for one
top-level section. -/
def entriesOfSection (sect : String) : JValue → List (String × JValue)
  | JValue.obj fields => fields.flatMap (fun p => entryOfValue sect p.1 p.2)
  | JValue.arr items =>
    (pyEnum 0 items).map (fun p => (sect ++ "_" ++ natRepr p.1, p.2))
  | v => [(sect, v)]

/-- All assignments of one `flatten_property_info` call, in program order. -/
def entryList (pi : List (String × JValue)) : List (String × JValue) :=
  pi.flatMap (fun p => entriesOfSection p.1 p.2)

/-- Lines 132–154: the flattened dict is the fold of the assignment sequence
through Python dict assignment. -/
def flatten_property_info (pi : List (String × JValue)) :
    List (String × JValue) :=
  (entryList pi).foldl (fun d p => dictInsert d p.1 p.2) []

/-! #### Dict lemmas -/

theorem jLookup_eq_none_iff {α : Type} (d : List (String × α)) (k : String) :
    jLookup d k = none ↔ k ∉ d.map Prod.fst := by
  induction d with
  | nil => simp [jLookup]
  | cons p rest ih =>
    obtain ⟨k0, v0⟩ := p
    by_cases hk : k0 = k
    · subst hk; simp [jLookup]
    · rw [jLookup, if_neg hk, ih]
      simp only [List.map_cons, List.mem_cons]
      constructor
      · intro h hor
        rcases hor with rfl | hm
        · exact hk rfl
        · exact h hm
      · intro h hm
        exact h (Or.inr hm)

theorem dictInsert_eq_append {α : Type} (d : List (String × α)) (k : String)
    (v : α) (h : k ∉ d.map Prod.fst) : dictInsert d k v = d ++ [(k, v)] := by
  induction d with
  | nil => rfl
  | cons p rest ih =>
    obtain ⟨k0, v0⟩ := p
    simp only [List.map_cons, List.mem_cons, not_or] at h
    have hk : ¬k0 = k := fun hh => h.1 hh.symm
    simp [dictInsert, hk, ih h.2]

theorem foldl_dictInsert_nodup {α : Type} :
    ∀ (l init : List (String × α)),
      (((init ++ l).map Prod.fst).Nodup) →
      l.foldl (fun d p => dictInsert d p.1 p.2) init = init ++ l := by
  intro l
  induction l with
  | nil => intro init _; simp
  | cons p rest ih =>
    intro init hnd
    obtain ⟨k, v⟩ := p
    have hk : k ∉ init.map Prod.fst := by
      have hnd2 := hnd
      rw [List.map_append, List.nodup_append] at hnd2
      intro hmem
      exact hnd2.2.2 hmem (by simp)
    have h1 : dictInsert init k v = init ++ [(k, v)] := dictInsert_eq_append _ _ _ hk
    have h2 := ih (init ++ [(k, v)]) (by simpa using hnd)
    calc ((k, v) :: rest).foldl (fun d p => dictInsert d p.1 p.2) init
        = rest.foldl (fun d p => dictInsert d p.1 p.2) (init ++ [(k, v)]) := by
          simp [List.foldl_cons, h1]
      _ = (init ++ [(k, v)]) ++ rest := h2
      _ = init ++ (k, v) :: rest := by simp

theorem jLookup_eq_of_mem_nodup {α : Type} {l : List (String × α)}
    {k : String} {v : α} (hmem : (k, v) ∈ l) (hnd : (l.map Prod.fst).Nodup) :
    jLookup l k = some v := by
  induction l with
  | nil => simp at hmem
  | cons p rest ih =>
    obtain ⟨k0, v0⟩ := p
    simp only [List.map_cons, List.nodup_cons] at hnd
    rcases List.mem_cons.mp hmem with heq | htail
    · cases heq
      simp [jLookup]
    · have hk : k0 ≠ k := by
        rintro rfl
        exact hnd.1 (List.mem_map.mpr ⟨(k0, v), htail, rfl⟩)
      simp [jLookup, hk, ih htail hnd.2]

/-- With pairwise-distinct constructed keys, the flattened dict is exactly
the assignment sequence. -/
theorem flatten_eq_entryList (pi : List (String × JValue))
    (hnd : ((entryList pi).map Prod.fst).Nodup) :
    flatten_property_info pi = entryList pi := by
  have := foldl_dictInsert_nodup (entryList pi) [] (by simpa using hnd)
  simpa [flatten_property_info] using this

/-! #### Decimal rendering is injective -/

def decodeDigits (l : List Char) : Nat :=
  l.foldl (fun a c => a * 10 + (c.toNat - 48)) 0

theorem digit_char_toNat (d : Nat) (hd : d < 10) :
    (Char.ofNat (48 + d)).toNat = 48 + d := by
  interval_cases d <;> rfl

theorem decode_natReprAux : ∀ fuel n, n ≤ fuel →
    decodeDigits (natReprAux fuel n) = n := by
  intro fuel
  induction fuel with
  | zero =>
    intro n hn
    interval_cases n
    rfl
  | succ fuel ih =>
    intro n hn
    by_cases h0 : n = 0
    · subst h0; rfl
    · have hlt : n / 10 < n := Nat.div_lt_self (Nat.pos_of_ne_zero h0) (by omega)
      have hdiv : n / 10 ≤ fuel := by omega
      have ihr := ih (n / 10) hdiv
      simp only [natReprAux, if_neg h0]
      rw [decodeDigits, List.foldl_append]
      rw [show List.foldl (fun a c => a * 10 + (c.toNat - 48)) 0
            (natReprAux fuel (n / 10))
          = decodeDigits (natReprAux fuel (n / 10)) from rfl, ihr]
      simp only [List.foldl_cons, List.foldl_nil]
      rw [digit_char_toNat _ (Nat.mod_lt n (by omega))]
      omega

theorem natRepr_injective : Function.Injective natRepr := by
  intro a b h
  by_cases ha : a = 0 <;> by_cases hb : b = 0
  · omega
  · exfalso
    have hd := congrArg String.data h
    simp only [natRepr, if_pos ha, if_neg hb] at hd
    have hb' : decodeDigits (natReprAux b b) = b := decode_natReprAux b b le_rfl
    rw [← hd] at hb'
    have h0 : decodeDigits ['0'] = 0 := rfl
    omega
  · exfalso
    have hd := congrArg String.data h
    simp only [natRepr, if_neg ha, if_pos hb] at hd
    have ha' : decodeDigits (natReprAux a a) = a := decode_natReprAux a a le_rfl
    rw [hd] at ha'
    have h0 : decodeDigits ['0'] = 0 := rfl
    omega
  · have hd := congrArg String.data h
    simp only [natRepr, if_neg ha, if_neg hb] at hd
    have ha' := decode_natReprAux a a le_rfl
    have hb' := decode_natReprAux b b le_rfl
    rw [hd] at ha'
    omega

/-! #### String key tools -/

theorem str_append_cancel_left {p a b : String} (h : p ++ a = p ++ b) :
    a = b := by
  have hd := congrArg String.data h
  rw [String.data_append, String.data_append] at hd
  exact String.ext (List.append_cancel_left hd)

theorem str_append_left_injective (p : String) :
    Function.Injective (fun s => p ++ s) := fun _ _ h => str_append_cancel_left h

/-- Two appends with concrete, same-length, different prefixes are distinct
strings no matter the suffixes. -/
theorem str_prefix_ne (p q a b : String)
    (hlen : p.data.length = q.data.length) (hne : p ≠ q) :
    p ++ a ≠ q ++ b := by
  intro h
  apply hne
  have hd := congrArg String.data h
  rw [String.data_append, String.data_append] at hd
  exact String.ext ((List.append_inj hd hlen).1)

theorem takeWhile_append_of_all {α : Type} {p : α → Bool} :
    ∀ (l₁ l₂ : List α), (∀ a ∈ l₁, p a = true) →
      (l₁ ++ l₂).takeWhile p = l₁ ++ l₂.takeWhile p := by
  intro l₁ l₂ h
  induction l₁ with
  | nil => simp
  | cons c rest ih =>
    have hc : p c = true := h c (by simp)
    simp only [List.cons_append, List.takeWhile_cons, hc, if_true]
    rw [ih (fun a ha => h a (by simp [ha]))]

theorem takeWhile_all {α : Type} {p : α → Bool} (l : List α)
    (h : ∀ a ∈ l, p a = true) : l.takeWhile p = l := by
  have := takeWhile_append_of_all l [] h
  simpa using this

theorem takeWhile_append_stop {α : Type} {p : α → Bool} (l₁ l₂ : List α)
    (c : α) (h : ∀ a ∈ l₁, p a = true) (hc : p c = false) :
    (l₁ ++ c :: l₂).takeWhile p = l₁ := by
  rw [takeWhile_append_of_all l₁ _ h]
  simp [List.takeWhile_cons, hc]

/-- The `ad_info` member a constructed flat key came from: the characters
after the `"ad_info_"` prefix up to the next underscore. -/
def adMemberTag (s : String) : String :=
  ⟨(s.data.drop 8).takeWhile (fun c => !(c == '_'))⟩

theorem data_drop_prefix (p k : String) :
    (p ++ k).data.drop p.data.length = k.data := by
  rw [String.data_append]
  exact List.drop_left _ _

theorem adMemberTag_scalar (k : String)
    (hk : ∀ c ∈ k.data, (c == '_') = false) :
    adMemberTag ("ad_info_" ++ k) = k := by
  unfold adMemberTag
  rw [show (8 : Nat) = ("ad_info_" : String).data.length from rfl,
    data_drop_prefix]
  rw [takeWhile_all _ (fun c hc => by simp [hk c hc])]

theorem adMemberTag_nested (k m : String)
    (hk : ∀ c ∈ k.data, (c == '_') = false) :
    adMemberTag ("ad_info_" ++ k ++ "_" ++ m) = k := by
  unfold adMemberTag
  have hd : ("ad_info_" ++ k ++ "_" ++ m).data
      = ("ad_info_" : String).data ++ (k.data ++ '_' :: m.data) := by
    simp [String.data_append]
  rw [hd, show (8 : Nat) = ("ad_info_" : String).data.length from rfl,
    List.drop_left]
  rw [takeWhile_append_stop _ _ _ (fun c hc => by simp [hk c hc]) (by rfl)]

/-! #### Well-formed grouped records (the §3 PropertyRecord data model)

The Embedded-Data Extractor produces exactly four sections in creation
order: `characteristics` (schema-free scalar mapping), `ad_info` (the five
fixed scalar fields plus `location`, and the four verbatim-copied nested
mappings), `details` (two string lists and the `energy_certificate`
mapping), and `source_url` (string or null). -/

/-- Neither a Python list nor a dict (the flattener's `else` branch). -/
def isScalar : JValue → Bool
  | JValue.arr _ => false
  | JValue.obj _ => false
  | _ => true

def distinctKeys : List String → Bool
  | [] => true
  | k :: rest => !(rest.contains k) && distinctKeys rest

theorem distinctKeys_iff (l : List String) : distinctKeys l = true ↔ l.Nodup := by
  induction l with
  | nil => simp [distinctKeys]
  | cons k rest ih => simp [distinctKeys, ih, List.nodup_cons]

def adScalarKeys : List String :=
  ["id", "operation", "typology", "price", "builtType", "location"]

def adObjKeys : List String := ["condition", "media", "owner", "agency"]

def isObjNodup : JValue → Bool
  | JValue.obj f => distinctKeys (f.map Prod.fst)
  | _ => false

def wfAdMember (p : String × JValue) : Bool :=
  (adScalarKeys.contains p.1 && isScalar p.2) ||
    (adObjKeys.contains p.1 && isObjNodup p.2)

def wfGrouped (ch ai ec : List (String × JValue)) (u : JValue) : Bool :=
  distinctKeys (ch.map Prod.fst) && ch.all (fun p => isScalar p.2) &&
    distinctKeys (ai.map Prod.fst) && ai.all wfAdMember &&
    distinctKeys (ec.map Prod.fst) && isScalar u

/-- A §3 grouped PropertyRecord: the four fixed sections in creation order. -/
def groupedRecord (ch ai : List (String × JValue)) (bf eqp : List JValue)
    (ec : List (String × JValue)) (u : JValue) : List (String × JValue) :=
  [("characteristics", JValue.obj ch),
   ("ad_info", JValue.obj ai),
   ("details", JValue.obj
     [("basic_features", JValue.arr bf),
      ("equipment", JValue.arr eqp),
      ("energy_certificate", JValue.obj ec)]),
   ("source_url", u)]

/-! #### Shapes of the generated flat entries -/

theorem entryOfValue_scalar (sect k : String) (v : JValue)
    (h : isScalar v = true) :
    entryOfValue sect k v = [(sect ++ "_" ++ k, v)] := by
  cases v <;> simp_all [entryOfValue, isScalar]

theorem entriesOfSection_scalar (sect : String) (v : JValue)
    (h : isScalar v = true) : entriesOfSection sect v = [(sect, v)] := by
  cases v <;> simp_all [entriesOfSection, isScalar]

theorem flatMap_scalar_entries (sect : String)
    (fields : List (String × JValue))
    (h : ∀ p ∈ fields, isScalar p.2 = true) :
    fields.flatMap (fun p => entryOfValue sect p.1 p.2)
      = fields.map (fun p => (sect ++ "_" ++ p.1, p.2)) := by
  induction fields with
  | nil => rfl
  | cons p rest ih =>
    rw [List.flatMap_cons, entryOfValue_scalar _ _ _ (h p (by simp)),
      ih (fun q hq => h q (by simp [hq]))]
    rfl

theorem adKeys_underscore_free (k : String)
    (hk : k ∈ adScalarKeys ∨ k ∈ adObjKeys) :
    ∀ c ∈ k.data, (c == '_') = false := by
  rcases hk with hk | hk <;> fin_cases hk <;> decide

/-! #### `pyEnum` index facts -/

theorem pyEnum_fst_le {α : Type} :
    ∀ (s : Nat) (l : List α) (p : Nat × α), p ∈ pyEnum s l → s ≤ p.1 := by
  intro s l
  induction l generalizing s with
  | nil => intro p hp; simp [pyEnum] at hp
  | cons x xs ih =>
    intro p hp
    simp only [pyEnum] at hp
    rcases List.mem_cons.mp hp with rfl | hp'
    · simp
    · have := ih (s + 1) p hp'
      omega

theorem pyEnum_pairwise {α : Type} :
    ∀ (s : Nat) (l : List α),
      (pyEnum s l).Pairwise (fun p q => p.1 < q.1) := by
  intro s l
  induction l generalizing s with
  | nil => simp [pyEnum]
  | cons x xs ih =>
    simp only [pyEnum]
    refine List.Pairwise.cons ?_ (ih (s + 1))
    intro q hq
    have := pyEnum_fst_le (s + 1) xs q hq
    simp
    omega

theorem pyEnum_mem_get {α : Type} :
    ∀ (s i : Nat) (l : List α) (h : i < l.length),
      (s + i, l.get ⟨i, h⟩) ∈ pyEnum s l := by
  intro s i l
  induction l generalizing s i with
  | nil => intro h; simp at h
  | cons x xs ih =>
    intro h
    cases i with
    | zero => simp [pyEnum]
    | succ i =>
      have hi : i < xs.length := by simpa using h
      have := ih (s + 1) i hi
      simp only [pyEnum, List.mem_cons]
      right
      have harith : s + (i + 1) = (s + 1) + i := by omega
      rw [harith]
      simpa using this

/-- Keys built as `P ++ natRepr index` over an enumeration are distinct. -/
theorem pyEnum_key_nodup {α : Type} (P : String) (l : List α) :
    ((pyEnum 0 l).map (fun p => P ++ natRepr p.1)).Nodup := by
  have hp := pyEnum_pairwise 0 l
  show ((pyEnum 0 l).map (fun p => P ++ natRepr p.1)).Pairwise (· ≠ ·)
  rw [List.pairwise_map]
  refine hp.imp ?_
  intro a b hab heq
  exact absurd (natRepr_injective (str_append_cancel_left heq))
    (Nat.ne_of_lt hab)

/-! #### `ad_info` entry keys -/

theorem adEntry_keys_tag (p : String × JValue) (hp : wfAdMember p = true) :
    ∀ key ∈ (entryOfValue "ad_info" p.1 p.2).map Prod.fst,
      adMemberTag key = p.1 := by
  obtain ⟨k, v⟩ := p
  rw [wfAdMember] at hp
  simp only [Bool.or_eq_true, Bool.and_eq_true] at hp
  rcases hp with ⟨hmem, hsc⟩ | ⟨hmem, hobj⟩
  · have hfree := adKeys_underscore_free k
      (Or.inl (by simpa [List.contains_iff_exists_mem_beq] using hmem))
    rw [entryOfValue_scalar _ _ _ hsc]
    intro key hkey
    simp only [List.map_cons, List.map_nil, List.mem_singleton] at hkey
    subst hkey
    exact adMemberTag_scalar k hfree
  · cases v <;> simp only [isObjNodup] at hobj
    case obj f =>
      have hfree := adKeys_underscore_free k
        (Or.inr (by simpa [List.contains_iff_exists_mem_beq] using hmem))
      intro key hkey
      simp only [entryOfValue, List.map_map, List.mem_map] at hkey
      obtain ⟨q, _, rfl⟩ := hkey
      exact adMemberTag_nested k q.1 hfree
    all_goals exact absurd hobj (by decide)

theorem adEntry_keys_nodup (p : String × JValue) (hp : wfAdMember p = true) :
    ((entryOfValue "ad_info" p.1 p.2).map Prod.fst).Nodup := by
  obtain ⟨k, v⟩ := p
  rw [wfAdMember] at hp
  simp only [Bool.or_eq_true, Bool.and_eq_true] at hp
  rcases hp with ⟨_, hsc⟩ | ⟨_, hobj⟩
  · rw [entryOfValue_scalar _ _ _ hsc]; simp
  · cases v <;> simp only [isObjNodup] at hobj
    case obj f =>
      have hnd : (f.map Prod.fst).Nodup := (distinctKeys_iff _).mp hobj
      have := List.Nodup.map
        (str_append_left_injective ("ad_info" ++ "_" ++ k ++ "_")) hnd
      rw [List.map_map] at this
      simp only [entryOfValue, List.map_map]
      exact this
    all_goals exact absurd hobj (by decide)

/-! #### Disequalities between constructed keys -/

theorem key_ne_bf_eq (x y : String) :
    "details_basic_features_" ++ x ≠ "details_equipment_" ++ y :=
  str_prefix_ne "details_b" "details_e" ("asic_features_" ++ x)
    ("quipment_" ++ y) rfl (by decide)

theorem key_ne_bf_ec (x y : String) :
    "details_basic_features_" ++ x ≠ "details_energy_certificate_" ++ y :=
  str_prefix_ne "details_b" "details_e" ("asic_features_" ++ x)
    ("nergy_certificate_" ++ y) rfl (by decide)

theorem key_ne_eq_ec (x y : String) :
    "details_equipment_" ++ x ≠ "details_energy_certificate_" ++ y :=
  str_prefix_ne "details_eq" "details_en" ("uipment_" ++ x)
    ("ergy_certificate_" ++ y) rfl (by decide)

theorem key_ne_ch_ad (x y : String) :
    "characteristics_" ++ x ≠ "ad_info_" ++ y :=
  str_prefix_ne "c" "a" ("haracteristics_" ++ x) ("d_info_" ++ y) rfl
    (by decide)

theorem key_ne_ch_de (x y : String) :
    "characteristics_" ++ x ≠ "details_" ++ y :=
  str_prefix_ne "c" "d" ("haracteristics_" ++ x) ("etails_" ++ y) rfl
    (by decide)

theorem key_ne_ch_su (x : String) :
    "characteristics_" ++ x ≠ "source_url" :=
  str_prefix_ne "c" "s" ("haracteristics_" ++ x) "ource_url" rfl (by decide)

theorem key_ne_ad_de (x y : String) :
    "ad_info_" ++ x ≠ "details_" ++ y :=
  str_prefix_ne "a" "d" ("d_info_" ++ x) ("etails_" ++ y) rfl (by decide)

theorem key_ne_ad_su (x : String) :
    "ad_info_" ++ x ≠ "source_url" :=
  str_prefix_ne "a" "s" ("d_info_" ++ x) "ource_url" rfl (by decide)

theorem key_ne_de_su (x : String) :
    "details_" ++ x ≠ "source_url" :=
  str_prefix_ne "d" "s" ("etails_" ++ x) "ource_url" rfl (by decide)

theorem nodup_append4 {α : Type} {P1 P2 P3 P4 : List α}
    (h1 : P1.Nodup) (h2 : P2.Nodup) (h3 : P3.Nodup) (h4 : P4.Nodup)
    (d12 : P1.Disjoint P2) (d13 : P1.Disjoint P3) (d14 : P1.Disjoint P4)
    (d23 : P2.Disjoint P3) (d24 : P2.Disjoint P4) (d34 : P3.Disjoint P4) :
    (P1 ++ (P2 ++ (P3 ++ P4))).Nodup := by
  rw [List.nodup_append]
  refine ⟨h1, ?_, ?_⟩
  · rw [List.nodup_append]
    refine ⟨h2, ?_, ?_⟩
    · rw [List.nodup_append]
      exact ⟨h3, h4, d34⟩
    · intro a ha hmem
      rcases List.mem_append.mp hmem with h | h
      · exact d23 ha h
      · exact d24 ha h
  · intro a ha hmem
    rcases List.mem_append.mp hmem with h | h
    · exact d12 ha h
    · rcases List.mem_append.mp h with h | h
      · exact d13 ha h
      · exact d14 ha h

/-- On a well-formed grouped PropertyRecord, all constructed flat keys are
pairwise distinct, so no dict assignment ever overwrites another. -/
theorem groupedRecord_keys_nodup (ch ai : List (String × JValue))
    (bf eqp : List JValue) (ec : List (String × JValue)) (u : JValue)
    (hwf : wfGrouped ch ai ec u = true) :
    ((entryList (groupedRecord ch ai bf eqp ec u)).map Prod.fst).Nodup := by
  rw [wfGrouped] at hwf
  simp only [Bool.and_eq_true] at hwf
  obtain ⟨⟨⟨⟨⟨hch, hchs⟩, hai⟩, hais⟩, hec⟩, hu⟩ := hwf
  have hchs' : ∀ p ∈ ch, isScalar p.2 = true :=
    fun p hp => (List.all_eq_true.mp hchs) p hp
  have hais' : ∀ p ∈ ai, wfAdMember p = true :=
    fun p hp => (List.all_eq_true.mp hais) p hp
  have hE : entryList (groupedRecord ch ai bf eqp ec u)
      = entriesOfSection "characteristics" (JValue.obj ch)
        ++ (entriesOfSection "ad_info" (JValue.obj ai)
        ++ (entriesOfSection "details" (JValue.obj
              [("basic_features", JValue.arr bf),
               ("equipment", JValue.arr eqp),
               ("energy_certificate", JValue.obj ec)])
        ++ entriesOfSection "source_url" u)) := by
    simp [entryList, groupedRecord]
  have hE1 : entriesOfSection "characteristics" (JValue.obj ch)
      = ch.map (fun p => ("characteristics_" ++ p.1, p.2)) := by
    rw [show entriesOfSection "characteristics" (JValue.obj ch)
        = ch.flatMap (fun p => entryOfValue "characteristics" p.1 p.2) from rfl,
      flatMap_scalar_entries _ _ hchs']
    exact rfl
  have hE3 : entriesOfSection "details" (JValue.obj
        [("basic_features", JValue.arr bf),
         ("equipment", JValue.arr eqp),
         ("energy_certificate", JValue.obj ec)])
      = (pyEnum 0 bf).map
          (fun p => ("details_basic_features_" ++ natRepr p.1, p.2))
        ++ ((pyEnum 0 eqp).map
          (fun p => ("details_equipment_" ++ natRepr p.1, p.2))
        ++ ec.map (fun q => ("details_energy_certificate_" ++ q.1, q.2))) := by
    simp only [entriesOfSection, List.flatMap_cons, List.flatMap_nil,
      List.append_nil, entryOfValue]
    exact rfl
  have hE4 : entriesOfSection "source_url" u = [("source_url", u)] :=
    entriesOfSection_scalar _ _ hu
  rw [hE, hE1, hE3, hE4]
  simp only [List.map_append]
  -- component key-list nodups
  have n1 : ((ch.map (fun p => ("characteristics_" ++ p.1, p.2))).map
      Prod.fst).Nodup := by
    rw [List.map_map]
    have h' := List.Nodup.map (str_append_left_injective "characteristics_")
      ((distinctKeys_iff _).mp hch)
    rw [List.map_map] at h'
    exact h'
  have n2 : ((entriesOfSection "ad_info" (JValue.obj ai)).map
      Prod.fst).Nodup := by
    simp only [entriesOfSection, List.map_flatMap]
    rw [List.nodup_flatMap]
    constructor
    · intro p hp
      exact adEntry_keys_nodup p (hais' p hp)
    · have hpair : ai.Pairwise (fun p q => p.1 ≠ q.1) := by
        have hnd := (distinctKeys_iff _).mp hai
        rw [show (ai.map Prod.fst).Nodup
            = (ai.map Prod.fst).Pairwise (· ≠ ·) from rfl,
          List.pairwise_map] at hnd
        exact hnd
      refine List.Pairwise.imp_of_mem ?_ hpair
      intro p q hp hq hne key hkp hkq
      have t1 := adEntry_keys_tag p (hais' p hp) key hkp
      have t2 := adEntry_keys_tag q (hais' q hq) key hkq
      exact hne (by rw [← t1, ← t2])
  have nB1 : (((pyEnum 0 bf).map
      (fun p => ("details_basic_features_" ++ natRepr p.1, p.2))).map
      Prod.fst).Nodup := by
    rw [List.map_map]
    exact pyEnum_key_nodup "details_basic_features_" bf
  have nB2 : (((pyEnum 0 eqp).map
      (fun p => ("details_equipment_" ++ natRepr p.1, p.2))).map
      Prod.fst).Nodup := by
    rw [List.map_map]
    exact pyEnum_key_nodup "details_equipment_" eqp
  have nB3 : ((ec.map
      (fun q => ("details_energy_certificate_" ++ q.1, q.2))).map
      Prod.fst).Nodup := by
    rw [List.map_map]
    have h' := List.Nodup.map
      (str_append_left_injective "details_energy_certificate_")
      ((distinctKeys_iff _).mp hec)
    rw [List.map_map] at h'
    exact h'
  -- shapes
  have s1 : ∀ key ∈ ((ch.map (fun p => ("characteristics_" ++ p.1, p.2))).map
      Prod.fst), ∃ x, key = "characteristics_" ++ x := by
    intro key hkey
    rw [List.map_map] at hkey
    obtain ⟨p, _, rfl⟩ := List.mem_map.mp hkey
    exact ⟨p.1, rfl⟩
  have s2 : ∀ key ∈ ((entriesOfSection "ad_info" (JValue.obj ai)).map
      Prod.fst), ∃ x, key = "ad_info_" ++ x := by
    intro key hkey
    simp only [entriesOfSection, List.map_flatMap, List.mem_flatMap] at hkey
    obtain ⟨p, _, hkey⟩ := hkey
    obtain ⟨k, v⟩ := p
    cases v with
    | arr items =>
      simp only [entryOfValue, List.map_map, List.mem_map] at hkey
      obtain ⟨q, _, rfl⟩ := hkey
      exact ⟨k ++ "_" ++ natRepr q.1, rfl⟩
    | obj f =>
      simp only [entryOfValue, List.map_map, List.mem_map] at hkey
      obtain ⟨q, _, rfl⟩ := hkey
      exact ⟨k ++ "_" ++ q.1, rfl⟩
    | null =>
      simp only [entryOfValue, List.map_cons, List.map_nil,
        List.mem_singleton] at hkey
      exact ⟨k, hkey⟩
    | bool b =>
      simp only [entryOfValue, List.map_cons, List.map_nil,
        List.mem_singleton] at hkey
      exact ⟨k, hkey⟩
    | num lit =>
      simp only [entryOfValue, List.map_cons, List.map_nil,
        List.mem_singleton] at hkey
      exact ⟨k, hkey⟩
    | str s =>
      simp only [entryOfValue, List.map_cons, List.map_nil,
        List.mem_singleton] at hkey
      exact ⟨k, hkey⟩
  have sB1 : ∀ key ∈ (((pyEnum 0 bf).map
      (fun p => ("details_basic_features_" ++ natRepr p.1, p.2))).map
      Prod.fst), ∃ x, key = "details_basic_features_" ++ x := by
    intro key hkey
    rw [List.map_map] at hkey
    obtain ⟨p, _, rfl⟩ := List.mem_map.mp hkey
    exact ⟨natRepr p.1, rfl⟩
  have sB2 : ∀ key ∈ (((pyEnum 0 eqp).map
      (fun p => ("details_equipment_" ++ natRepr p.1, p.2))).map
      Prod.fst), ∃ x, key = "details_equipment_" ++ x := by
    intro key hkey
    rw [List.map_map] at hkey
    obtain ⟨p, _, rfl⟩ := List.mem_map.mp hkey
    exact ⟨natRepr p.1, rfl⟩
  have sB3 : ∀ key ∈ ((ec.map
      (fun q => ("details_energy_certificate_" ++ q.1, q.2))).map
      Prod.fst), ∃ x, key = "details_energy_certificate_" ++ x := by
    intro key hkey
    rw [List.map_map] at hkey
    obtain ⟨q, _, rfl⟩ := List.mem_map.mp hkey
    exact ⟨q.1, rfl⟩
  have n3 : ((((pyEnum 0 bf).map
        (fun p => ("details_basic_features_" ++ natRepr p.1, p.2))).map
        Prod.fst)
      ++ ((((pyEnum 0 eqp).map
        (fun p => ("details_equipment_" ++ natRepr p.1, p.2))).map Prod.fst)
      ++ ((ec.map
        (fun q => ("details_energy_certificate_" ++ q.1, q.2))).map
        Prod.fst))).Nodup := by
    rw [List.nodup_append]
    refine ⟨nB1, ?_, ?_⟩
    · rw [List.nodup_append]
      refine ⟨nB2, nB3, ?_⟩
      intro key hk1 hk2
      obtain ⟨x, rfl⟩ := sB2 key hk1
      obtain ⟨y, hy⟩ := sB3 _ hk2
      exact key_ne_eq_ec x y hy
    · intro key hk1 hk2
      obtain ⟨x, rfl⟩ := sB1 key hk1
      rcases List.mem_append.mp hk2 with h | h
      · obtain ⟨y, hy⟩ := sB2 _ h
        exact key_ne_bf_eq x y hy
      · obtain ⟨y, hy⟩ := sB3 _ h
        exact key_ne_bf_ec x y hy
  have s3 : ∀ key ∈ ((((pyEnum 0 bf).map
        (fun p => ("details_basic_features_" ++ natRepr p.1, p.2))).map
        Prod.fst)
      ++ ((((pyEnum 0 eqp).map
        (fun p => ("details_equipment_" ++ natRepr p.1, p.2))).map Prod.fst)
      ++ ((ec.map
        (fun q => ("details_energy_certificate_" ++ q.1, q.2))).map
        Prod.fst))), ∃ x, key = "details_" ++ x := by
    intro key hkey
    rcases List.mem_append.mp hkey with h | h
    · obtain ⟨x, rfl⟩ := sB1 key h
      exact ⟨"basic_features_" ++ x, rfl⟩
    · rcases List.mem_append.mp h with h | h
      · obtain ⟨x, rfl⟩ := sB2 key h
        exact ⟨"equipment_" ++ x, rfl⟩
      · obtain ⟨x, rfl⟩ := sB3 key h
        exact ⟨"energy_certificate_" ++ x, rfl⟩
  refine nodup_append4 n1 n2 n3 (by simp) ?_ ?_ ?_ ?_ ?_ ?_
  · intro key hk1 hk2
    obtain ⟨x, rfl⟩ := s1 key hk1
    obtain ⟨y, hy⟩ := s2 _ hk2
    exact key_ne_ch_ad x y hy
  · intro key hk1 hk2
    obtain ⟨x, rfl⟩ := s1 key hk1
    obtain ⟨y, hy⟩ := s3 _ hk2
    exact key_ne_ch_de x y hy
  · intro key hk1 hk2
    obtain ⟨x, rfl⟩ := s1 key hk1
    have : "characteristics_" ++ x = "source_url" := by simpa using hk2
    exact key_ne_ch_su x this
  · intro key hk1 hk2
    obtain ⟨x, rfl⟩ := s2 key hk1
    obtain ⟨y, hy⟩ := s3 _ hk2
    exact key_ne_ad_de x y hy
  · intro key hk1 hk2
    obtain ⟨x, rfl⟩ := s2 key hk1
    have : "ad_info_" ++ x = "source_url" := by simpa using hk2
    exact key_ne_ad_su x this
  · intro key hk1 hk2
    obtain ⟨x, rfl⟩ := s3 key hk1
    have : "details_" ++ x = "source_url" := by simpa using hk2
    exact key_ne_de_su x this

/-! #### Retrieving generated entries from the flattened dict -/

theorem mem_entryList_of_mem {pi : List (String × JValue)} {g : String}
    {data : JValue} (h : (g, data) ∈ pi) {e : String × JValue}
    (he : e ∈ entriesOfSection g data) : e ∈ entryList pi :=
  List.mem_flatMap.mpr ⟨(g, data), h, he⟩

theorem mem_entries_scalar {g k : String} {fields : List (String × JValue)}
    {v : JValue} (hmem : (k, v) ∈ fields) (hs : isScalar v = true) :
    (g ++ "_" ++ k, v) ∈ entriesOfSection g (JValue.obj fields) := by
  refine List.mem_flatMap.mpr ⟨(k, v), hmem, ?_⟩
  rw [entryOfValue_scalar _ _ _ hs]
  simp

theorem mem_entries_arr {g k : String} {fields : List (String × JValue)}
    {items : List JValue} (hmem : (k, JValue.arr items) ∈ fields)
    (i : Nat) (hi : i < items.length) :
    (g ++ "_" ++ k ++ "_" ++ natRepr i, items.get ⟨i, hi⟩)
      ∈ entriesOfSection g (JValue.obj fields) := by
  refine List.mem_flatMap.mpr ⟨(k, JValue.arr items), hmem, ?_⟩
  have h0 := pyEnum_mem_get 0 i items hi
  rw [Nat.zero_add] at h0
  exact List.mem_map.mpr ⟨(i, items.get ⟨i, hi⟩), h0, rfl⟩

theorem mem_entries_obj {g k : String} {fields nf : List (String × JValue)}
    {nk : String} {nv : JValue} (hmem : (k, JValue.obj nf) ∈ fields)
    (hn : (nk, nv) ∈ nf) :
    (g ++ "_" ++ k ++ "_" ++ nk, nv)
      ∈ entriesOfSection g (JValue.obj fields) := by
  refine List.mem_flatMap.mpr ⟨(k, JValue.obj nf), hmem, ?_⟩
  exact List.mem_map.mpr ⟨(nk, nv), hn, rfl⟩

/-- C4: on every grouped PropertyRecord (the §3 data model shape), the
Flattener is total (a total Lean function) and deterministic (first
conjunct); scalar group members land under `{group}_{key}`, list members
under `{group}_{key}_{index}` (0-based, order preserved), one-level nested
members under `{group}_{key}_{nestedKey}`, top-level non-grouped scalars
such as `source_url` pass through unprefixed; and no information is dropped
except the group/type structure itself: every generated assignment is
retrievable from the flat mapping (last conjunct). -/
theorem claim_C4_flattener_total_lossless (ch ai : List (String × JValue))
    (bf eqp : List JValue) (ec : List (String × JValue)) (u : JValue)
    (hwf : wfGrouped ch ai ec u = true) :
    flatten_property_info (groupedRecord ch ai bf eqp ec u)
        = flatten_property_info (groupedRecord ch ai bf eqp ec u) ∧
    (∀ g fields k v,
        (g, JValue.obj fields) ∈ groupedRecord ch ai bf eqp ec u →
        (k, v) ∈ fields → isScalar v = true →
        jLookup (flatten_property_info (groupedRecord ch ai bf eqp ec u))
          (g ++ "_" ++ k) = some v) ∧
    (∀ g fields k items i (hi : i < items.length),
        (g, JValue.obj fields) ∈ groupedRecord ch ai bf eqp ec u →
        (k, JValue.arr items) ∈ fields →
        jLookup (flatten_property_info (groupedRecord ch ai bf eqp ec u))
          (g ++ "_" ++ k ++ "_" ++ natRepr i) = some (items.get ⟨i, hi⟩)) ∧
    (∀ g fields k nf nk nv,
        (g, JValue.obj fields) ∈ groupedRecord ch ai bf eqp ec u →
        (k, JValue.obj nf) ∈ fields → (nk, nv) ∈ nf →
        jLookup (flatten_property_info (groupedRecord ch ai bf eqp ec u))
          (g ++ "_" ++ k ++ "_" ++ nk) = some nv) ∧
    (∀ g v, (g, v) ∈ groupedRecord ch ai bf eqp ec u → isScalar v = true →
        jLookup (flatten_property_info (groupedRecord ch ai bf eqp ec u)) g
          = some v) ∧
    (∀ e ∈ entryList (groupedRecord ch ai bf eqp ec u),
        jLookup (flatten_property_info (groupedRecord ch ai bf eqp ec u)) e.1
          = some e.2) := by
  have hnd := groupedRecord_keys_nodup ch ai bf eqp ec u hwf
  have hflat := flatten_eq_entryList _ hnd
  refine ⟨rfl, ?_, ?_, ?_, ?_, ?_⟩
  · intro g fields k v hg hk hs
    rw [hflat]
    exact jLookup_eq_of_mem_nodup
      (mem_entryList_of_mem hg (mem_entries_scalar hk hs)) hnd
  · intro g fields k items i hi hg hk
    rw [hflat]
    exact jLookup_eq_of_mem_nodup
      (mem_entryList_of_mem hg (mem_entries_arr hk i hi)) hnd
  · intro g fields k nf nk nv hg hk hn
    rw [hflat]
    exact jLookup_eq_of_mem_nodup
      (mem_entryList_of_mem hg (mem_entries_obj hk hn)) hnd
  · intro g v hg hs
    rw [hflat]
    refine jLookup_eq_of_mem_nodup
      (mem_entryList_of_mem hg ?_) hnd
    rw [entriesOfSection_scalar _ _ hs]
    simp
  · intro e he
    rw [hflat]
    exact jLookup_eq_of_mem_nodup he hnd

/-- Witness for C4 on a concrete grouped record exercising all four key
shapes. -/
theorem claim_C4_flattener_witness :
    jLookup (flatten_property_info (groupedRecord
        [("hasLift", JValue.bool true)]
        [("id", JValue.num "5"),
         ("condition", JValue.obj [("isGoodCondition", JValue.bool true)])]
        [JValue.str "3 habitaciones"] []
        [("consumption_rating", JValue.str "C")]
        (JValue.str "https://example.org")))
      ("characteristics" ++ "_" ++ "hasLift") = some (JValue.bool true) ∧
    jLookup (flatten_property_info (groupedRecord
        [("hasLift", JValue.bool true)]
        [("id", JValue.num "5"),
         ("condition", JValue.obj [("isGoodCondition", JValue.bool true)])]
        [JValue.str "3 habitaciones"] []
        [("consumption_rating", JValue.str "C")]
        (JValue.str "https://example.org")))
      ("details" ++ "_" ++ "basic_features" ++ "_" ++ natRepr 0)
      = some (JValue.str "3 habitaciones") ∧
    jLookup (flatten_property_info (groupedRecord
        [("hasLift", JValue.bool true)]
        [("id", JValue.num "5"),
         ("condition", JValue.obj [("isGoodCondition", JValue.bool true)])]
        [JValue.str "3 habitaciones"] []
        [("consumption_rating", JValue.str "C")]
        (JValue.str "https://example.org")))
      ("ad_info" ++ "_" ++ "condition" ++ "_" ++ "isGoodCondition")
      = some (JValue.bool true) ∧
    jLookup (flatten_property_info (groupedRecord
        [("hasLift", JValue.bool true)]
        [("id", JValue.num "5"),
         ("condition", JValue.obj [("isGoodCondition", JValue.bool true)])]
        [JValue.str "3 habitaciones"] []
        [("consumption_rating", JValue.str "C")]
        (JValue.str "https://example.org")))
      "source_url" = some (JValue.str "https://example.org") := by
  have h := claim_C4_flattener_total_lossless
    [("hasLift", JValue.bool true)]
    [("id", JValue.num "5"),
     ("condition", JValue.obj [("isGoodCondition", JValue.bool true)])]
    [JValue.str "3 habitaciones"] []
    [("consumption_rating", JValue.str "C")]
    (JValue.str "https://example.org") (by decide)
  refine ⟨?_, ?_, ?_, ?_⟩
  · exact h.2.1 "characteristics" [("hasLift", JValue.bool true)] "hasLift"
      (JValue.bool true) (by simp [groupedRecord]) (by simp) (by rfl)
  · exact h.2.2.1 "details"
      [("basic_features", JValue.arr [JValue.str "3 habitaciones"]),
       ("equipment", JValue.arr []),
       ("energy_certificate", JValue.obj
         [("consumption_rating", JValue.str "C")])]
      "basic_features" [JValue.str "3 habitaciones"] 0 (by decide)
      (by simp [groupedRecord]) (by simp)
  · exact h.2.2.2.1 "ad_info"
      [("id", JValue.num "5"),
       ("condition", JValue.obj [("isGoodCondition", JValue.bool true)])]
      "condition" [("isGoodCondition", JValue.bool true)] "isGoodCondition"
      (JValue.bool true) (by simp [groupedRecord]) (by simp) (by simp)
  · exact h.2.2.2.2.1 "source_url" (JValue.str "https://example.org")
      (by simp [groupedRecord]) (by rfl)

/-! ### More Python string primitives (for the Section-List Extractor) -/

/-- Python whitespace (the ASCII part `strip()` removes). -/
def isPyWs (c : Char) : Bool :=
  c == ' ' || c == '\t' || c == '\n' || c == '\r' ||
    c == Char.ofNat 11 || c == Char.ofNat 12

/-- Python `s.strip()`. -/
def pyStrip (s : String) : String :=
  ⟨((s.data.dropWhile isPyWs).reverse.dropWhile isPyWs).reverse⟩

/-- Python `sub in hay` (substring containment). -/
def pyContains (hay sub : String) : Bool :=
  hay.data.tails.any (fun t => sub.data.isPrefixOf t)

/-- Python `s.replace(pat, rep)` for a non-empty pattern: replaces all
non-overlapping occurrences left to right.  Fuel is the input length (each
step consumes at least one character). -/
def pyReplaceAux (pat rep : List Char) : Nat → List Char → List Char
  | 0, l => l
  | _ + 1, [] => []
  | fuel + 1, c :: rest =>
    if !pat.isEmpty && pat.isPrefixOf (c :: rest) then
      rep ++ pyReplaceAux pat rep fuel ((c :: rest).drop pat.length)
    else
      c :: pyReplaceAux pat rep fuel rest

def pyReplace (s pat rep : String) : String :=
  ⟨pyReplaceAux pat.data rep.data s.data.length s.data⟩

/-- Python `s.split(sep)` for a non-empty string separator. -/
def pySplitStrAux (sep : List Char) : Nat → List Char → List Char →
    List (List Char)
  | 0, acc, l => [acc.reverse ++ l]
  | _ + 1, acc, [] => [acc.reverse]
  | fuel + 1, acc, c :: rest =>
    if !sep.isEmpty && sep.isPrefixOf (c :: rest) then
      acc.reverse :: pySplitStrAux sep fuel [] ((c :: rest).drop sep.length)
    else
      pySplitStrAux sep fuel (c :: acc) rest

def pySplitStr (s sep : String) : List String :=
  (pySplitStrAux sep.data (s.data.length + 1) [] s.data).map (fun l => ⟨l⟩)

/-! ### The Section-List Extractor

Embedding of src/html_processor.py lines 156–335
(`extract_detailed_property_features`).  The BeautifulSoup queries the
function performs are abstracted to their results, collected in `PageDoc`:
each field corresponds to one `soup.find(...)` chain in the source, `none`
meaning the element was not found.  The record is an association list (the
Python dict with its 25 keys), values `Option String` (Python `None` or a
string).  The function returns `none` exactly where the source raises:
`find('div', class_='details-property_features')` returning `None` followed
by `.find_all('li')` (line 260), and the `text.split(' ')[2]` IndexError in
the `Parcela` branch (line 283). -/

structure SpanElem where
  text : String
  classes : Option (List String)

structure LiElem where
  text : String
  spans : List SpanElem

inductive ContentNode where
  | text : String → ContentNode
  | tag : ContentNode

/-- The `details-property` div: the `feature-one` div (with its optional
inner `details-property_features` div, a list of `li`), and the
`feature-two` div (with its list of `details-property_features` divs). -/
structure DetailsDiv where
  feature_one : Option (Option (List LiElem))
  feature_two : Option (List (List LiElem))

/-- The results of every soup query `extract_detailed_property_features`
makes, in source order:
`link[rel=canonical]`'s href, `span.info-data-price`'s text,
`span.main-info__title-minor`'s text, `section.date-update-block` and its
`p.date-update-text`, `div.advertiser-name-container` and its
`a.about-advertiser-name`, `span.particular`'s direct contents,
`div.info-features` and its first `span`, and `div.details-property`. -/
structure PageDoc where
  canonical_href : Option String
  price_span : Option String
  location_span : Option String
  date_update : Option (Option String)
  advertiser_container : Option (Option String)
  particular_span : Option (List ContentNode)
  info_features : Option (Option String)
  details : Option DetailsDiv

/-- Lines 177–203: the 25-key dict with its defaults. -/
def initFeatures (page_url : Option String) : List (String × Option String) :=
  [("source_url", page_url),
   ("property_type", none),
   ("floors", none),
   ("size_built_sqm", none),
   ("size_useful_sqm", none),
   ("rooms", none),
   ("bathrooms", none),
   ("plot_size_sqm", none),
   ("terrace", some "No"),
   ("balcony", some "No"),
   ("parking", some "No"),
   ("condition", none),
   ("built_in_wardrobes", some "No"),
   ("storage_room", some "No"),
   ("orientation", none),
   ("built_year", none),
   ("heating_type", none),
   ("garden", some "No"),
   ("swimming_pool", some "No"),
   ("energy_consumption_rating", none),
   ("energy_emissions_rating", none),
   ("price", none),
   ("location", none),
   ("ad_update_date", none),
   ("advertiser_name", none)]

/-- Lines 173–175: a canonical link with a truthy href overrides the
caller-supplied URL. -/
def resolveUrl (doc : PageDoc) (page_url : Option String) : Option String :=
  match doc.canonical_href with
  | some h => if h != "" then some h else page_url
  | none => page_url

/-- Lines 205–209. -/
def priceStep (doc : PageDoc) (pf : List (String × Option String)) :
    List (String × Option String) :=
  match doc.price_span with
  | some t => dictInsert pf "price" (some (pyStrip t))
  | none => pf

/-- Lines 211–215. -/
def locationStep (doc : PageDoc) (pf : List (String × Option String)) :
    List (String × Option String) :=
  match doc.location_span with
  | some t => dictInsert pf "location" (some (pyStrip t))
  | none => pf

/-- Lines 217–223. -/
def dateStep (doc : PageDoc) (pf : List (String × Option String)) :
    List (String × Option String) :=
  match doc.date_update with
  | some (some t) => dictInsert pf "ad_update_date" (some (pyStrip t))
  | _ => pf

/-- Lines 225–242: advertiser container, falling back to the `particular`
span whose direct text children are stripped, joined and prefixed. -/
def advertiserStep (doc : PageDoc) (pf : List (String × Option String)) :
    List (String × Option String) :=
  match doc.advertiser_container with
  | some (some t) => dictInsert pf "advertiser_name" (some (pyStrip t))
  | some none => pf
  | none =>
    match doc.particular_span with
    | some contents =>
      let parts := contents.filterMap (fun n =>
        match n with
        | ContentNode.text s => some (pyStrip s)
        | ContentNode.tag => none)
      let advertiser_name := pyStrip (pyJoin " " parts)
      if advertiser_name != "" then
        dictInsert pf "advertiser_name" (some ("PARTICULAR: " ++ advertiser_name))
      else pf
    | none => pf

/-- Lines 244–251: built size from the `info-features` block. -/
def infoFeaturesStep (doc : PageDoc) (pf : List (String × Option String)) :
    List (String × Option String) :=
  match doc.info_features with
  | some (some t) =>
    let size_text := pyStrip t
    if pyContains size_text "m²" then
      dictInsert pf "size_built_sqm"
        (some (pyReplace (pyReplace ((pySplitStr size_text " m²").getD 0 "")
          "." "") "," "."))
    else pf
  | _ => pf

/-- Lines 170–251: everything before the details container is consulted. -/
def preDetails (doc : PageDoc) (page_url : Option String) :
    List (String × Option String) :=
  infoFeaturesStep doc (advertiserStep doc (dateStep doc (locationStep doc
    (priceStep doc (initFeatures (resolveUrl doc page_url))))))

/-- Lines 270–275: the body of the combined built/useful size loop, for one
comma-separated part. -/
def sizeStep (pf : List (String × Option String)) (part : String) :
    List (String × Option String) :=
  if pyContains part "m² útiles" then
    dictInsert pf "size_useful_sqm"
      (some (pyReplace (pyReplace (pyStrip (pyReplace
        ((pySplitStr part " m²").getD 0 "") " m² útiles" "")) "." "") "," "."))
  else if pyContains part "m² construidos" then
    dictInsert pf "size_built_sqm"
      (some (pyReplace (pyReplace (pyStrip (pyReplace
        ((pySplitStr part " m²").getD 0 "") " m² construidos" "")) "." "")
        "," "."))
  else pf

/-- Lines 269–275: the combined built/useful size branch, looping over the
comma-separated parts. -/
def sizesFromParts (pf : List (String × Option String)) (parts : List String) :
    List (String × Option String) :=
  parts.foldl sizeStep pf

/-- Lines 282–283: `text.split(' ')[2]` can raise IndexError (`none`). -/
def plotStep (pf : List (String × Option String)) (text : String) :
    Option (List (String × Option String)) :=
  match (pySplit text ' ')[2]? with
  | some tok => some (dictInsert pf "plot_size_sqm"
      (some (pyReplace (pyReplace (pyReplace tok "m²" "") "." "") "," ".")))
  | none => none

/-- Lines 262–303: the ordered first-match `elif` chain, applied to the
already-stripped item text. -/
def processBasicItemText (pf : List (String × Option String)) (text : String) :
    Option (List (String × Option String)) :=
  if pyContains text "Casa o chalet independiente" then
    some (dictInsert pf "property_type" (some "Casa o chalet independiente"))
  else if pyContains text "planta" && !pyContains text "plantas" then
    some (dictInsert pf "floors" (some ((pySplit text ' ').getD 0 "")))
  else if pyContains text "plantas" then
    some (dictInsert pf "floors" (some ((pySplit text ' ').getD 0 "")))
  else if pyContains text "m² construidos" && pyContains text "m² útiles" then
    some (sizesFromParts pf (pySplit text ','))
  else if pyContains text "habitaciones" then
    some (dictInsert pf "rooms" (some ((pySplit text ' ').getD 0 "")))
  else if pyContains text "baño" && !pyContains text "baños" then
    some (dictInsert pf "bathrooms" (some ((pySplit text ' ').getD 0 "")))
  else if pyContains text "baños" then
    some (dictInsert pf "bathrooms" (some ((pySplit text ' ').getD 0 "")))
  else if pyContains text "Parcela de" && pyContains text "m²" then
    plotStep pf text
  else if pyContains text "Terraza" then
    some (dictInsert pf "terrace" (some "Yes"))
  else if pyContains text "balcón" || pyContains text "Balcón" then
    some (dictInsert pf "balcony" (some "Yes"))
  else if pyContains text "garaje" then
    some (dictInsert pf "parking" (some "Yes"))
  else if pyContains text "Segunda mano" then
    some (dictInsert pf "condition"
      (some (pyReplace (pyReplace text "Segunda mano/" "") "/buen estado" "")))
  else if pyContains text "Armarios empotrados" then
    some (dictInsert pf "built_in_wardrobes" (some "Yes"))
  else if pyContains text "Trastero" then
    some (dictInsert pf "storage_room" (some "Yes"))
  else if pyContains text "Orientación" then
    some (dictInsert pf "orientation" (some (pyReplace text "Orientación " "")))
  else if pyContains text "Construido en" then
    some (dictInsert pf "built_year" (some ((pySplit text ' ').getLastD "")))
  else if pyContains text "No dispone de calefacción" then
    some (dictInsert pf "heating_type" (some "No dispone de calefacción"))
  else if pyContains text "Calefacción individual" then
    some (dictInsert pf "heating_type" (some "Calefacción individual"))
  else some pf

/-- Lines 261–303: one basic-feature list item (`text = item.text.strip()`
then the chain). -/
def processBasicItem (pf : List (String × Option String))
    (item_text : String) : Option (List (String × Option String)) :=
  processBasicItemText pf (pyStrip item_text)

def processBasicList (pf : List (String × Option String)) :
    List String → Option (List (String × Option String))
  | [] => some pf
  | t :: rest =>
    match processBasicItem pf t with
    | none => none
    | some pf2 => processBasicList pf2 rest

/-- Lines 313–316: the equipment chain on the already-stripped item text. -/
def processEquipItemText (pf : List (String × Option String)) (text : String) :
    List (String × Option String) :=
  if pyContains text "Jardín" then dictInsert pf "garden" (some "Yes")
  else if pyContains text "Piscina" then
    dictInsert pf "swimming_pool" (some "Yes")
  else pf

/-- Lines 311–316: one equipment list item. -/
def processEquipItem (pf : List (String × Option String))
    (item_text : String) : List (String × Option String) :=
  processEquipItemText pf (pyStrip item_text)

def processEquipList (pf : List (String × Option String))
    (items : List String) : List (String × Option String) :=
  items.foldl processEquipItem pf

/-- Lines 320–333: one energy-certificate `li`, via the Energy-Rating
Decoder on the first class token of the second span. -/
def processEnergyLi (pf : List (String × Option String)) (li : LiElem) :
    List (String × Option String) :=
  if li.spans.length == 2 then
    let label := pyStrip ((li.spans.getD 0 ⟨"", none⟩).text)
    let rating : Option String :=
      match (li.spans.getD 1 ⟨"", none⟩).classes with
      | some (c0 :: _) => decode_rating c0
      | _ => none
    if pyContains label "Consumo" then
      dictInsert pf "energy_consumption_rating" rating
    else if pyContains label "Emisiones" then
      dictInsert pf "energy_emissions_rating" rating
    else pf
  else pf

def processEnergyList (pf : List (String × Option String))
    (lis : List LiElem) : List (String × Option String) :=
  lis.foldl processEnergyLi pf

/-- Lines 257–303: the `feature-one` stage.  A `feature-one` div whose inner
`details-property_features` div is missing makes line 260 raise. -/
def basicStage (det : DetailsDiv) (pf : List (String × Option String)) :
    Option (List (String × Option String)) :=
  match det.feature_one with
  | none => some pf
  | some none => none
  | some (some lis) => processBasicList pf (lis.map LiElem.text)

/-- Lines 305–333: the `feature-two` stage (equipment then energy). -/
def equipStage (det : DetailsDiv) (pf : List (String × Option String)) :
    List (String × Option String) :=
  match det.feature_two with
  | none => pf
  | some equipment_lists =>
    let pf2 := if 0 < equipment_lists.length then
        processEquipList pf ((equipment_lists.getD 0 []).map LiElem.text)
      else pf
    if 1 < equipment_lists.length then
      processEnergyList pf2 (equipment_lists.getD 1 [])
    else pf2

/-- Lines 156–335: the whole Section-List Extractor. -/
def extract_detailed_property_features (doc : PageDoc)
    (page_url : Option String) : Option (List (String × Option String)) :=
  let pf0 := preDetails doc page_url
  match doc.details with
  | none => some pf0
  | some det =>
    match basicStage det pf0 with
    | none => none
    | some pf1 => some (equipStage det pf1)

/-! #### Dict update lemmas -/

theorem jLookup_dictInsert_self {α : Type} (d : List (String × α))
    (k : String) (v : α) : jLookup (dictInsert d k v) k = some v := by
  induction d with
  | nil => simp [dictInsert, jLookup]
  | cons p rest ih =>
    obtain ⟨k0, v0⟩ := p
    by_cases h : k0 = k <;> simp [dictInsert, jLookup, h, ih]

theorem jLookup_dictInsert_ne {α : Type} (d : List (String × α))
    (k k' : String) (v : α) (h : k' ≠ k) :
    jLookup (dictInsert d k' v) k = jLookup d k := by
  induction d with
  | nil => simp [dictInsert, jLookup, h]
  | cons p rest ih =>
    obtain ⟨k0, v0⟩ := p
    by_cases h0 : k0 = k'
    · subst h0
      simp [dictInsert, jLookup, h]
    · have hkk : k ≠ k' := Ne.symm h
      by_cases h1 : k0 = k <;> simp [dictInsert, jLookup, h0, h1, hkk, ih]

theorem dictInsert_map_fst_of_mem {α : Type} (d : List (String × α))
    (k : String) (v : α) (h : k ∈ d.map Prod.fst) :
    (dictInsert d k v).map Prod.fst = d.map Prod.fst := by
  induction d with
  | nil => simp at h
  | cons p rest ih =>
    obtain ⟨k0, v0⟩ := p
    by_cases h0 : k0 = k
    · simp [dictInsert, h0]
    · simp only [List.map_cons, List.mem_cons] at h
      rcases h with h | h
      · exact absurd h.symm h0
      · simp [dictInsert, h0, ih h]

/-! #### The fixed key set of the Section-List Extractor's record -/

def fullKeys : List String :=
  ["source_url", "property_type", "floors", "size_built_sqm",
   "size_useful_sqm", "rooms", "bathrooms", "plot_size_sqm", "terrace",
   "balcony", "parking", "condition", "built_in_wardrobes", "storage_room",
   "orientation", "built_year", "heating_type", "garden", "swimming_pool",
   "energy_consumption_rating", "energy_emissions_rating", "price",
   "location", "ad_update_date", "advertiser_name"]

def flagKeys : List String :=
  ["terrace", "balcony", "parking", "built_in_wardrobes", "storage_room",
   "garden", "swimming_pool"]

/-- The keys the 18-branch basic-feature chain can assign. -/
def basicKeys : List String :=
  ["property_type", "floors", "size_useful_sqm", "size_built_sqm", "rooms",
   "bathrooms", "plot_size_sqm", "terrace", "balcony", "parking", "condition",
   "built_in_wardrobes", "storage_room", "orientation", "built_year",
   "heating_type"]

theorem initFeatures_map_fst (u : Option String) :
    (initFeatures u).map Prod.fst = fullKeys := rfl

/-! #### The pre-details steps only touch their own keys -/

theorem priceStep_lookup (doc : PageDoc) (pf : List (String × Option String))
    (k : String) (h : k ≠ "price") :
    jLookup (priceStep doc pf) k = jLookup pf k := by
  unfold priceStep
  cases doc.price_span with
  | none => rfl
  | some t => exact jLookup_dictInsert_ne _ _ _ _ (Ne.symm h)

theorem locationStep_lookup (doc : PageDoc)
    (pf : List (String × Option String)) (k : String) (h : k ≠ "location") :
    jLookup (locationStep doc pf) k = jLookup pf k := by
  unfold locationStep
  cases doc.location_span with
  | none => rfl
  | some t => exact jLookup_dictInsert_ne _ _ _ _ (Ne.symm h)

theorem dateStep_lookup (doc : PageDoc) (pf : List (String × Option String))
    (k : String) (h : k ≠ "ad_update_date") :
    jLookup (dateStep doc pf) k = jLookup pf k := by
  unfold dateStep
  cases hd : doc.date_update with
  | none => rfl
  | some o =>
    cases o with
    | none => rfl
    | some t => exact jLookup_dictInsert_ne _ _ _ _ (Ne.symm h)

theorem advertiserStep_lookup (doc : PageDoc)
    (pf : List (String × Option String)) (k : String)
    (h : k ≠ "advertiser_name") :
    jLookup (advertiserStep doc pf) k = jLookup pf k := by
  unfold advertiserStep
  cases doc.advertiser_container with
  | some o =>
    cases o with
    | none => rfl
    | some t => exact jLookup_dictInsert_ne _ _ _ _ (Ne.symm h)
  | none =>
    cases doc.particular_span with
    | none => rfl
    | some contents =>
      simp only []
      split
      · exact jLookup_dictInsert_ne _ _ _ _ (Ne.symm h)
      · rfl

theorem infoFeaturesStep_lookup (doc : PageDoc)
    (pf : List (String × Option String)) (k : String)
    (h : k ≠ "size_built_sqm") :
    jLookup (infoFeaturesStep doc pf) k = jLookup pf k := by
  unfold infoFeaturesStep
  cases doc.info_features with
  | none => rfl
  | some o =>
    cases o with
    | none => rfl
    | some t =>
      simp only []
      split
      · exact jLookup_dictInsert_ne _ _ _ _ (Ne.symm h)
      · rfl

theorem preDetails_lookup (doc : PageDoc) (u : Option String) (k : String)
    (h1 : k ≠ "price") (h2 : k ≠ "location") (h3 : k ≠ "ad_update_date")
    (h4 : k ≠ "advertiser_name") (h5 : k ≠ "size_built_sqm") :
    jLookup (preDetails doc u) k
      = jLookup (initFeatures (resolveUrl doc u)) k := by
  unfold preDetails
  rw [infoFeaturesStep_lookup _ _ _ h5, advertiserStep_lookup _ _ _ h4,
    dateStep_lookup _ _ _ h3, locationStep_lookup _ _ _ h2,
    priceStep_lookup _ _ _ h1]

/-! #### The pre-details steps keep the key set -/

theorem insert_keeps (pf : List (String × Option String))
    (hkeys : pf.map Prod.fst = fullKeys) (k : String) (hk : k ∈ fullKeys)
    (v : Option String) : (dictInsert pf k v).map Prod.fst = fullKeys := by
  rw [dictInsert_map_fst_of_mem _ _ _ (by rw [hkeys]; exact hk), hkeys]

theorem priceStep_map_fst (doc : PageDoc) (pf : List (String × Option String))
    (h : pf.map Prod.fst = fullKeys) :
    (priceStep doc pf).map Prod.fst = fullKeys := by
  unfold priceStep
  cases doc.price_span with
  | none => exact h
  | some t => exact insert_keeps pf h _ (by decide) _

theorem locationStep_map_fst (doc : PageDoc)
    (pf : List (String × Option String)) (h : pf.map Prod.fst = fullKeys) :
    (locationStep doc pf).map Prod.fst = fullKeys := by
  unfold locationStep
  cases doc.location_span with
  | none => exact h
  | some t => exact insert_keeps pf h _ (by decide) _

theorem dateStep_map_fst (doc : PageDoc)
    (pf : List (String × Option String)) (h : pf.map Prod.fst = fullKeys) :
    (dateStep doc pf).map Prod.fst = fullKeys := by
  unfold dateStep
  cases doc.date_update with
  | none => exact h
  | some o =>
    cases o with
    | none => exact h
    | some t => exact insert_keeps pf h _ (by decide) _

theorem advertiserStep_map_fst (doc : PageDoc)
    (pf : List (String × Option String)) (h : pf.map Prod.fst = fullKeys) :
    (advertiserStep doc pf).map Prod.fst = fullKeys := by
  unfold advertiserStep
  cases doc.advertiser_container with
  | some o =>
    cases o with
    | none => exact h
    | some t => exact insert_keeps pf h _ (by decide) _
  | none =>
    cases doc.particular_span with
    | none => exact h
    | some contents =>
      simp only []
      split
      · exact insert_keeps pf h _ (by decide) _
      · exact h

theorem infoFeaturesStep_map_fst (doc : PageDoc)
    (pf : List (String × Option String)) (h : pf.map Prod.fst = fullKeys) :
    (infoFeaturesStep doc pf).map Prod.fst = fullKeys := by
  unfold infoFeaturesStep
  cases doc.info_features with
  | none => exact h
  | some o =>
    cases o with
    | none => exact h
    | some t =>
      simp only []
      split
      · exact insert_keeps pf h _ (by decide) _
      · exact h

theorem preDetails_map_fst (doc : PageDoc) (u : Option String) :
    (preDetails doc u).map Prod.fst = fullKeys := by
  unfold preDetails
  exact infoFeaturesStep_map_fst _ _ (advertiserStep_map_fst _ _
    (dateStep_map_fst _ _ (locationStep_map_fst _ _
      (priceStep_map_fst _ _ (initFeatures_map_fst _)))))

/-! ### C7: missing details container -/

/-- The fields only the details stages (basic features, equipment, energy
certificate) can set; everything else is set before the details check. -/
def detailOnlyKeys : List String :=
  ["property_type", "floors", "size_useful_sqm", "rooms", "bathrooms",
   "plot_size_sqm", "terrace", "balcony", "parking", "condition",
   "built_in_wardrobes", "storage_room", "orientation", "built_year",
   "heating_type", "garden", "swimming_pool", "energy_consumption_rating",
   "energy_emissions_rating"]

/-- C7 counterexample: a document with a price span but no details container.
The extractor returns early at line 255, but with the price already set to
`"100 €"` — not the default `None` — so the result is not "all default field
values". -/
theorem claim_C7_counterexample :
    extract_detailed_property_features
        ⟨none, some "100 €", none, none, none, none, none, none⟩ none
      = some (dictInsert (initFeatures none) "price" (some "100 €")) ∧
    jLookup (dictInsert (initFeatures none) "price" (some "100 €")) "price"
      = some (some "100 €") ∧
    jLookup (initFeatures none) "price" = some none :=
  ⟨rfl, rfl, rfl⟩

/-- C7 amended: when the details container is absent the extractor does not
raise and returns the record as populated so far (line 255 returns the
current dict): every details-derived field still carries its declared
default, while the fields extracted before the details check (source_url,
price, location, ad_update_date, advertiser_name, size_built_sqm) may
already be non-default. -/
theorem claim_C7_amended_current_defaults (doc : PageDoc) (u : Option String)
    (h : doc.details = none) :
    extract_detailed_property_features doc u = some (preDetails doc u) ∧
    ∀ k ∈ detailOnlyKeys,
      jLookup (preDetails doc u) k = jLookup (initFeatures none) k := by
  constructor
  · simp only [extract_detailed_property_features, h]
  · intro k hk
    fin_cases hk <;>
      rw [preDetails_lookup _ _ _ (by decide) (by decide) (by decide)
        (by decide) (by decide)] <;> rfl

/-- Witness for the amended C7: a document with a price but no details
container keeps every details-derived default (shown here for `terrace`). -/
theorem claim_C7_amended_witness :
    extract_detailed_property_features
        ⟨some "https://x", some "100 €", none, none, none, none, none, none⟩
        none
      = some (preDetails
          ⟨some "https://x", some "100 €", none, none, none, none, none, none⟩
          none) ∧
    jLookup (preDetails
        ⟨some "https://x", some "100 €", none, none, none, none, none, none⟩
        none) "terrace" = jLookup (initFeatures none) "terrace" := by
  have h := claim_C7_amended_current_defaults
    ⟨some "https://x", some "100 €", none, none, none, none, none, none⟩
    none rfl
  exact ⟨h.1, h.2 "terrace" (by decide)⟩

/-! #### What one basic-feature item can do to the record -/

/-- Evidence that a boolean-flag assignment was guarded by its keyword. -/
def flagGuard (text k : String) : Prop :=
  (k = "terrace" → pyContains text "Terraza" = true) ∧
  (k = "balcony" → (pyContains text "balcón" || pyContains text "Balcón") = true) ∧
  (k = "parking" → pyContains text "garaje" = true) ∧
  (k = "built_in_wardrobes" → pyContains text "Armarios empotrados" = true) ∧
  (k = "storage_room" → pyContains text "Trastero" = true)

theorem plotStep_cases (pf : List (String × Option String)) (text : String)
    (pf2 : List (String × Option String)) (h : plotStep pf text = some pf2) :
    ∃ v, pf2 = dictInsert pf "plot_size_sqm" v := by
  unfold plotStep at h
  cases hidx : (pySplit text ' ')[2]? with
  | none => rw [hidx] at h; simp at h
  | some tok =>
    rw [hidx] at h
    injection h with h
    exact ⟨_, h.symm⟩

set_option maxHeartbeats 1000000 in
/-- Every branch of the basic-feature chain either leaves the record alone,
runs the combined-sizes loop, or assigns exactly one key from `basicKeys`;
boolean flags are only ever assigned `"Yes"`, and only when their keyword
occurs in the (stripped) item text. -/
theorem processBasicItemText_cases (pf : List (String × Option String))
    (text : String) (pf2 : List (String × Option String))
    (h : processBasicItemText pf text = some pf2) :
    pf2 = pf ∨
    (∃ parts, pf2 = sizesFromParts pf parts) ∨
    (∃ k v, k ∈ basicKeys ∧ pf2 = dictInsert pf k v ∧
      (k ∈ flagKeys → v = some "Yes") ∧ flagGuard text k) := by
  unfold processBasicItemText at h
  by_cases hb1 : pyContains text "Casa o chalet independiente" = true
  · rw [if_pos hb1] at h
    injection h with h
    subst h
    exact Or.inr (Or.inr ⟨_, _, by decide, rfl,
      fun hf => absurd hf (by decide),
      fun he => absurd he (by decide), fun he => absurd he (by decide), fun he => absurd he (by decide), fun he => absurd he (by decide), fun he => absurd he (by decide)⟩)
  rw [if_neg hb1] at h
  by_cases hb2 : (pyContains text "planta" && !pyContains text "plantas") = true
  · rw [if_pos hb2] at h
    injection h with h
    subst h
    exact Or.inr (Or.inr ⟨_, _, by decide, rfl,
      fun hf => absurd hf (by decide),
      fun he => absurd he (by decide), fun he => absurd he (by decide), fun he => absurd he (by decide), fun he => absurd he (by decide), fun he => absurd he (by decide)⟩)
  rw [if_neg hb2] at h
  by_cases hb3 : pyContains text "plantas" = true
  · rw [if_pos hb3] at h
    injection h with h
    subst h
    exact Or.inr (Or.inr ⟨_, _, by decide, rfl,
      fun hf => absurd hf (by decide),
      fun he => absurd he (by decide), fun he => absurd he (by decide), fun he => absurd he (by decide), fun he => absurd he (by decide), fun he => absurd he (by decide)⟩)
  rw [if_neg hb3] at h
  by_cases hb4 : (pyContains text "m² construidos" && pyContains text "m² útiles") = true
  · rw [if_pos hb4] at h
    injection h with h
    subst h
    exact Or.inr (Or.inl ⟨_, rfl⟩)
  rw [if_neg hb4] at h
  by_cases hb5 : pyContains text "habitaciones" = true
  · rw [if_pos hb5] at h
    injection h with h
    subst h
    exact Or.inr (Or.inr ⟨_, _, by decide, rfl,
      fun hf => absurd hf (by decide),
      fun he => absurd he (by decide), fun he => absurd he (by decide), fun he => absurd he (by decide), fun he => absurd he (by decide), fun he => absurd he (by decide)⟩)
  rw [if_neg hb5] at h
  by_cases hb6 : (pyContains text "baño" && !pyContains text "baños") = true
  · rw [if_pos hb6] at h
    injection h with h
    subst h
    exact Or.inr (Or.inr ⟨_, _, by decide, rfl,
      fun hf => absurd hf (by decide),
      fun he => absurd he (by decide), fun he => absurd he (by decide), fun he => absurd he (by decide), fun he => absurd he (by decide), fun he => absurd he (by decide)⟩)
  rw [if_neg hb6] at h
  by_cases hb7 : pyContains text "baños" = true
  · rw [if_pos hb7] at h
    injection h with h
    subst h
    exact Or.inr (Or.inr ⟨_, _, by decide, rfl,
      fun hf => absurd hf (by decide),
      fun he => absurd he (by decide), fun he => absurd he (by decide), fun he => absurd he (by decide), fun he => absurd he (by decide), fun he => absurd he (by decide)⟩)
  rw [if_neg hb7] at h
  by_cases hb8 : (pyContains text "Parcela de" && pyContains text "m²") = true
  · rw [if_pos hb8] at h
    obtain ⟨v, rfl⟩ := plotStep_cases _ _ _ h
    exact Or.inr (Or.inr ⟨_, _, by decide, rfl,
      fun hf => absurd hf (by decide),
      fun he => absurd he (by decide), fun he => absurd he (by decide), fun he => absurd he (by decide), fun he => absurd he (by decide), fun he => absurd he (by decide)⟩)
  rw [if_neg hb8] at h
  by_cases hb9 : pyContains text "Terraza" = true
  · rw [if_pos hb9] at h
    injection h with h
    subst h
    exact Or.inr (Or.inr ⟨_, _, by decide, rfl,
      fun _ => rfl,
      fun _ => hb9, fun he => absurd he (by decide), fun he => absurd he (by decide), fun he => absurd he (by decide), fun he => absurd he (by decide)⟩)
  rw [if_neg hb9] at h
  by_cases hb10 : (pyContains text "balcón" || pyContains text "Balcón") = true
  · rw [if_pos hb10] at h
    injection h with h
    subst h
    exact Or.inr (Or.inr ⟨_, _, by decide, rfl,
      fun _ => rfl,
      fun he => absurd he (by decide), fun _ => hb10, fun he => absurd he (by decide), fun he => absurd he (by decide), fun he => absurd he (by decide)⟩)
  rw [if_neg hb10] at h
  by_cases hb11 : pyContains text "garaje" = true
  · rw [if_pos hb11] at h
    injection h with h
    subst h
    exact Or.inr (Or.inr ⟨_, _, by decide, rfl,
      fun _ => rfl,
      fun he => absurd he (by decide), fun he => absurd he (by decide), fun _ => hb11, fun he => absurd he (by decide), fun he => absurd he (by decide)⟩)
  rw [if_neg hb11] at h
  by_cases hb12 : pyContains text "Segunda mano" = true
  · rw [if_pos hb12] at h
    injection h with h
    subst h
    exact Or.inr (Or.inr ⟨_, _, by decide, rfl,
      fun hf => absurd hf (by decide),
      fun he => absurd he (by decide), fun he => absurd he (by decide), fun he => absurd he (by decide), fun he => absurd he (by decide), fun he => absurd he (by decide)⟩)
  rw [if_neg hb12] at h
  by_cases hb13 : pyContains text "Armarios empotrados" = true
  · rw [if_pos hb13] at h
    injection h with h
    subst h
    exact Or.inr (Or.inr ⟨_, _, by decide, rfl,
      fun _ => rfl,
      fun he => absurd he (by decide), fun he => absurd he (by decide), fun he => absurd he (by decide), fun _ => hb13, fun he => absurd he (by decide)⟩)
  rw [if_neg hb13] at h
  by_cases hb14 : pyContains text "Trastero" = true
  · rw [if_pos hb14] at h
    injection h with h
    subst h
    exact Or.inr (Or.inr ⟨_, _, by decide, rfl,
      fun _ => rfl,
      fun he => absurd he (by decide), fun he => absurd he (by decide), fun he => absurd he (by decide), fun he => absurd he (by decide), fun _ => hb14⟩)
  rw [if_neg hb14] at h
  by_cases hb15 : pyContains text "Orientación" = true
  · rw [if_pos hb15] at h
    injection h with h
    subst h
    exact Or.inr (Or.inr ⟨_, _, by decide, rfl,
      fun hf => absurd hf (by decide),
      fun he => absurd he (by decide), fun he => absurd he (by decide), fun he => absurd he (by decide), fun he => absurd he (by decide), fun he => absurd he (by decide)⟩)
  rw [if_neg hb15] at h
  by_cases hb16 : pyContains text "Construido en" = true
  · rw [if_pos hb16] at h
    injection h with h
    subst h
    exact Or.inr (Or.inr ⟨_, _, by decide, rfl,
      fun hf => absurd hf (by decide),
      fun he => absurd he (by decide), fun he => absurd he (by decide), fun he => absurd he (by decide), fun he => absurd he (by decide), fun he => absurd he (by decide)⟩)
  rw [if_neg hb16] at h
  by_cases hb17 : pyContains text "No dispone de calefacción" = true
  · rw [if_pos hb17] at h
    injection h with h
    subst h
    exact Or.inr (Or.inr ⟨_, _, by decide, rfl,
      fun hf => absurd hf (by decide),
      fun he => absurd he (by decide), fun he => absurd he (by decide), fun he => absurd he (by decide), fun he => absurd he (by decide), fun he => absurd he (by decide)⟩)
  rw [if_neg hb17] at h
  by_cases hb18 : pyContains text "Calefacción individual" = true
  · rw [if_pos hb18] at h
    injection h with h
    subst h
    exact Or.inr (Or.inr ⟨_, _, by decide, rfl,
      fun hf => absurd hf (by decide),
      fun he => absurd he (by decide), fun he => absurd he (by decide), fun he => absurd he (by decide), fun he => absurd he (by decide), fun he => absurd he (by decide)⟩)
  rw [if_neg hb18] at h
  injection h with h
  subst h
  exact Or.inl rfl

theorem processBasicItem_cases (pf : List (String × Option String))
    (t : String) (pf2 : List (String × Option String))
    (h : processBasicItem pf t = some pf2) :
    pf2 = pf ∨
    (∃ parts, pf2 = sizesFromParts pf parts) ∨
    (∃ k v, k ∈ basicKeys ∧ pf2 = dictInsert pf k v ∧
      (k ∈ flagKeys → v = some "Yes") ∧ flagGuard (pyStrip t) k) :=
  processBasicItemText_cases pf (pyStrip t) pf2 h

/-! #### Preservation lemmas for the item processors -/

theorem sizeStep_lookup_ne (pf : List (String × Option String))
    (part k : String) (h1 : k ≠ "size_useful_sqm")
    (h2 : k ≠ "size_built_sqm") :
    jLookup (sizeStep pf part) k = jLookup pf k := by
  unfold sizeStep
  split_ifs
  · exact jLookup_dictInsert_ne _ _ _ _ (Ne.symm h1)
  · exact jLookup_dictInsert_ne _ _ _ _ (Ne.symm h2)
  · rfl

theorem sizeStep_map_fst (pf : List (String × Option String)) (part : String)
    (h : pf.map Prod.fst = fullKeys) :
    (sizeStep pf part).map Prod.fst = fullKeys := by
  unfold sizeStep
  split_ifs
  · exact insert_keeps pf h _ (by decide) _
  · exact insert_keeps pf h _ (by decide) _
  · exact h

theorem sizesFromParts_lookup_ne (parts : List String)
    (pf : List (String × Option String)) (k : String)
    (h1 : k ≠ "size_useful_sqm") (h2 : k ≠ "size_built_sqm") :
    jLookup (sizesFromParts pf parts) k = jLookup pf k := by
  induction parts generalizing pf with
  | nil => rfl
  | cons p rest ih =>
    show jLookup (sizesFromParts (sizeStep pf p) rest) k = jLookup pf k
    rw [ih (sizeStep pf p), sizeStep_lookup_ne _ _ _ h1 h2]

theorem sizesFromParts_map_fst (parts : List String)
    (pf : List (String × Option String)) (h : pf.map Prod.fst = fullKeys) :
    (sizesFromParts pf parts).map Prod.fst = fullKeys := by
  induction parts generalizing pf with
  | nil => exact h
  | cons p rest ih =>
    exact ih (sizeStep pf p) (sizeStep_map_fst pf p h)

theorem basicKeys_sub_fullKeys : ∀ k ∈ basicKeys, k ∈ fullKeys := by decide

theorem flag_ne_sizes : ∀ f ∈ flagKeys,
    f ≠ "size_useful_sqm" ∧ f ≠ "size_built_sqm" := by decide

/-- The five boolean-flag fields the basic-feature chain can set, with the
keywords that flip each one. -/
def basicFlagKws : List (String × List String) :=
  [("terrace", ["Terraza"]), ("balcony", ["balcón", "Balcón"]),
   ("parking", ["garaje"]), ("built_in_wardrobes", ["Armarios empotrados"]),
   ("storage_room", ["Trastero"])]

/-- The two boolean-flag fields the equipment loop can set. -/
def equipFlagKws : List (String × List String) :=
  [("garden", ["Jardín"]), ("swimming_pool", ["Piscina"])]

theorem processBasicItem_map_fst (pf : List (String × Option String))
    (t : String) (pf2 : List (String × Option String))
    (h : processBasicItem pf t = some pf2)
    (hk : pf.map Prod.fst = fullKeys) : pf2.map Prod.fst = fullKeys := by
  rcases processBasicItem_cases pf t pf2 h with rfl | ⟨parts, rfl⟩ |
    ⟨k, v, hkmem, rfl, _, _⟩
  · exact hk
  · exact sizesFromParts_map_fst _ _ hk
  · exact insert_keeps pf hk k (basicKeys_sub_fullKeys k hkmem) v

theorem processBasicItem_lookup_notin (pf : List (String × Option String))
    (t : String) (pf2 : List (String × Option String)) (f : String)
    (h : processBasicItem pf t = some pf2) (hf : f ∉ basicKeys) :
    jLookup pf2 f = jLookup pf f := by
  rcases processBasicItem_cases pf t pf2 h with rfl | ⟨parts, rfl⟩ |
    ⟨k, v, hkmem, rfl, _, _⟩
  · rfl
  · exact sizesFromParts_lookup_ne _ _ _
      (fun he => hf (he ▸ (by decide))) (fun he => hf (he ▸ (by decide)))
  · exact jLookup_dictInsert_ne _ _ _ _ (fun he => hf (he ▸ hkmem))

theorem processBasicItem_flag_range (pf : List (String × Option String))
    (t : String) (pf2 : List (String × Option String)) (f : String)
    (h : processBasicItem pf t = some pf2) (hf : f ∈ flagKeys)
    (hr : jLookup pf f = some (some "No") ∨ jLookup pf f = some (some "Yes")) :
    jLookup pf2 f = some (some "No") ∨ jLookup pf2 f = some (some "Yes") := by
  rcases processBasicItem_cases pf t pf2 h with rfl | ⟨parts, rfl⟩ |
    ⟨k, v, hkmem, rfl, hflag, _⟩
  · exact hr
  · rw [sizesFromParts_lookup_ne _ _ _ (flag_ne_sizes f hf).1
      (flag_ne_sizes f hf).2]
    exact hr
  · by_cases hkf : k = f
    · subst hkf
      right
      rw [jLookup_dictInsert_self, hflag hf]
    · rw [jLookup_dictInsert_ne _ _ _ _ hkf]
      exact hr

theorem basicFlagKws_flags : ∀ p ∈ basicFlagKws, p.1 ∈ flagKeys := by decide

theorem processBasicItem_flag_keep (pf : List (String × Option String))
    (t : String) (pf2 : List (String × Option String)) (f : String)
    (kws : List String) (h : processBasicItem pf t = some pf2)
    (hfk : (f, kws) ∈ basicFlagKws)
    (hno : ∀ kw ∈ kws, pyContains (pyStrip t) kw = false) :
    jLookup pf2 f = jLookup pf f := by
  rcases processBasicItem_cases pf t pf2 h with rfl | ⟨parts, rfl⟩ |
    ⟨k, v, hkmem, rfl, _, hguard⟩
  · rfl
  · have hf : f ∈ flagKeys := basicFlagKws_flags (f, kws) hfk
    exact sizesFromParts_lookup_ne _ _ _ (flag_ne_sizes f hf).1
      (flag_ne_sizes f hf).2
  · by_cases hkf : k = f
    · exfalso
      subst hkf
      fin_cases hfk
      · have hg := hguard.1 rfl
        rw [hno "Terraza" (by decide)] at hg
        exact absurd hg (by decide)
      · have hg := hguard.2.1 rfl
        rw [hno "balcón" (by decide), hno "Balcón" (by decide)] at hg
        exact absurd hg (by decide)
      · have hg := hguard.2.2.1 rfl
        rw [hno "garaje" (by decide)] at hg
        exact absurd hg (by decide)
      · have hg := hguard.2.2.2.1 rfl
        rw [hno "Armarios empotrados" (by decide)] at hg
        exact absurd hg (by decide)
      · have hg := hguard.2.2.2.2 rfl
        rw [hno "Trastero" (by decide)] at hg
        exact absurd hg (by decide)
    · exact jLookup_dictInsert_ne _ _ _ _ hkf

/-! #### Lifting item lemmas over the basic-feature list -/

theorem processBasicList_map_fst : ∀ (ts : List String)
    (pf pf2 : List (String × Option String)),
    processBasicList pf ts = some pf2 → pf.map Prod.fst = fullKeys →
    pf2.map Prod.fst = fullKeys := by
  intro ts
  induction ts with
  | nil =>
    intro pf pf2 h hk
    injection h with h
    exact h ▸ hk
  | cons t rest ih =>
    intro pf pf2 h hk
    simp only [processBasicList] at h
    cases hit : processBasicItem pf t with
    | none => rw [hit] at h; exact absurd h (by simp)
    | some pfm =>
      rw [hit] at h
      exact ih pfm pf2 h (processBasicItem_map_fst _ _ _ hit hk)

theorem processBasicList_lookup_notin : ∀ (ts : List String)
    (pf pf2 : List (String × Option String)) (f : String),
    processBasicList pf ts = some pf2 → f ∉ basicKeys →
    jLookup pf2 f = jLookup pf f := by
  intro ts
  induction ts with
  | nil =>
    intro pf pf2 f h _
    injection h with h
    exact h ▸ rfl
  | cons t rest ih =>
    intro pf pf2 f h hf
    simp only [processBasicList] at h
    cases hit : processBasicItem pf t with
    | none => rw [hit] at h; exact absurd h (by simp)
    | some pfm =>
      rw [hit] at h
      rw [ih _ _ _ h hf, processBasicItem_lookup_notin _ _ _ _ hit hf]

theorem processBasicList_flag_range : ∀ (ts : List String)
    (pf pf2 : List (String × Option String)) (f : String),
    processBasicList pf ts = some pf2 → f ∈ flagKeys →
    (jLookup pf f = some (some "No") ∨ jLookup pf f = some (some "Yes")) →
    (jLookup pf2 f = some (some "No") ∨ jLookup pf2 f = some (some "Yes")) := by
  intro ts
  induction ts with
  | nil =>
    intro pf pf2 f h _ hr
    injection h with h
    exact h ▸ hr
  | cons t rest ih =>
    intro pf pf2 f h hf hr
    simp only [processBasicList] at h
    cases hit : processBasicItem pf t with
    | none => rw [hit] at h; exact absurd h (by simp)
    | some pfm =>
      rw [hit] at h
      exact ih _ _ _ h hf (processBasicItem_flag_range _ _ _ _ hit hf hr)

theorem processBasicList_flag_keep : ∀ (ts : List String)
    (pf pf2 : List (String × Option String)) (f : String) (kws : List String),
    processBasicList pf ts = some pf2 → (f, kws) ∈ basicFlagKws →
    (∀ t ∈ ts, ∀ kw ∈ kws, pyContains (pyStrip t) kw = false) →
    jLookup pf2 f = jLookup pf f := by
  intro ts
  induction ts with
  | nil =>
    intro pf pf2 f kws h _ _
    injection h with h
    exact h ▸ rfl
  | cons t rest ih =>
    intro pf pf2 f kws h hfk hno
    simp only [processBasicList] at h
    cases hit : processBasicItem pf t with
    | none => rw [hit] at h; exact absurd h (by simp)
    | some pfm =>
      rw [hit] at h
      rw [ih _ _ _ _ h hfk (fun t2 ht2 => hno t2 (by simp [ht2])),
        processBasicItem_flag_keep _ _ _ _ _ hit hfk
          (fun kw hkw => hno t (by simp) kw hkw)]

/-! #### Equipment and energy loop lemmas -/

theorem processEquipItem_lookup_ne (pf : List (String × Option String))
    (t k : String) (h1 : k ≠ "garden") (h2 : k ≠ "swimming_pool") :
    jLookup (processEquipItem pf t) k = jLookup pf k := by
  unfold processEquipItem processEquipItemText
  split_ifs
  · exact jLookup_dictInsert_ne _ _ _ _ (Ne.symm h1)
  · exact jLookup_dictInsert_ne _ _ _ _ (Ne.symm h2)
  · rfl

theorem processEquipItem_map_fst (pf : List (String × Option String))
    (t : String) (h : pf.map Prod.fst = fullKeys) :
    (processEquipItem pf t).map Prod.fst = fullKeys := by
  unfold processEquipItem processEquipItemText
  split_ifs
  · exact insert_keeps pf h _ (by decide) _
  · exact insert_keeps pf h _ (by decide) _
  · exact h

theorem processEquipItem_flag_range (pf : List (String × Option String))
    (t f : String) (_hf : f ∈ flagKeys)
    (hr : jLookup pf f = some (some "No") ∨ jLookup pf f = some (some "Yes")) :
    jLookup (processEquipItem pf t) f = some (some "No") ∨
      jLookup (processEquipItem pf t) f = some (some "Yes") := by
  unfold processEquipItem processEquipItemText
  split_ifs
  · by_cases hgf : "garden" = f
    · right; rw [← hgf, jLookup_dictInsert_self]
    · rw [jLookup_dictInsert_ne _ _ _ _ hgf]; exact hr
  · by_cases hgf : "swimming_pool" = f
    · right; rw [← hgf, jLookup_dictInsert_self]
    · rw [jLookup_dictInsert_ne _ _ _ _ hgf]; exact hr
  · exact hr

theorem processEquipItem_flag_keep (pf : List (String × Option String))
    (t f : String) (kws : List String) (hfk : (f, kws) ∈ equipFlagKws)
    (hno : ∀ kw ∈ kws, pyContains (pyStrip t) kw = false) :
    jLookup (processEquipItem pf t) f = jLookup pf f := by
  unfold processEquipItem processEquipItemText
  fin_cases hfk
  · have hj : ¬(pyContains (pyStrip t) "Jardín" = true) := by
      rw [hno "Jardín" (by decide)]; decide
    rw [if_neg hj]
    by_cases hp : pyContains (pyStrip t) "Piscina" = true
    · rw [if_pos hp]
      exact jLookup_dictInsert_ne _ _ _ _ (by decide)
    · rw [if_neg hp]
  · by_cases hj : pyContains (pyStrip t) "Jardín" = true
    · rw [if_pos hj]
      exact jLookup_dictInsert_ne _ _ _ _ (by decide)
    · have hp : ¬(pyContains (pyStrip t) "Piscina" = true) := by
        rw [hno "Piscina" (by decide)]; decide
      rw [if_neg hj, if_neg hp]

theorem processEquipList_lookup_ne (items : List String)
    (pf : List (String × Option String)) (k : String) (h1 : k ≠ "garden")
    (h2 : k ≠ "swimming_pool") :
    jLookup (processEquipList pf items) k = jLookup pf k := by
  induction items generalizing pf with
  | nil => rfl
  | cons t rest ih =>
    show jLookup (processEquipList (processEquipItem pf t) rest) k = _
    rw [ih (processEquipItem pf t), processEquipItem_lookup_ne _ _ _ h1 h2]

theorem processEquipList_map_fst (items : List String)
    (pf : List (String × Option String)) (h : pf.map Prod.fst = fullKeys) :
    (processEquipList pf items).map Prod.fst = fullKeys := by
  induction items generalizing pf with
  | nil => exact h
  | cons t rest ih => exact ih _ (processEquipItem_map_fst pf t h)

theorem processEquipList_flag_range (items : List String)
    (pf : List (String × Option String)) (f : String) (hf : f ∈ flagKeys)
    (hr : jLookup pf f = some (some "No") ∨ jLookup pf f = some (some "Yes")) :
    jLookup (processEquipList pf items) f = some (some "No") ∨
      jLookup (processEquipList pf items) f = some (some "Yes") := by
  induction items generalizing pf with
  | nil => exact hr
  | cons t rest ih => exact ih _ (processEquipItem_flag_range pf t f hf hr)

theorem processEquipList_flag_keep (items : List String)
    (pf : List (String × Option String)) (f : String) (kws : List String)
    (hfk : (f, kws) ∈ equipFlagKws)
    (hno : ∀ t ∈ items, ∀ kw ∈ kws, pyContains (pyStrip t) kw = false) :
    jLookup (processEquipList pf items) f = jLookup pf f := by
  induction items generalizing pf with
  | nil => rfl
  | cons t rest ih =>
    show jLookup (processEquipList (processEquipItem pf t) rest) f = _
    rw [ih _ (fun t2 ht2 => hno t2 (by simp [ht2])),
      processEquipItem_flag_keep pf t f kws hfk
        (fun kw hkw => hno t (by simp) kw hkw)]

theorem processEnergyLi_lookup_ne (pf : List (String × Option String))
    (li : LiElem) (k : String) (h1 : k ≠ "energy_consumption_rating")
    (h2 : k ≠ "energy_emissions_rating") :
    jLookup (processEnergyLi pf li) k = jLookup pf k := by
  simp only [processEnergyLi]
  split_ifs
  · exact jLookup_dictInsert_ne _ _ _ _ (Ne.symm h1)
  · exact jLookup_dictInsert_ne _ _ _ _ (Ne.symm h2)
  · rfl
  · rfl

theorem processEnergyLi_map_fst (pf : List (String × Option String))
    (li : LiElem) (h : pf.map Prod.fst = fullKeys) :
    (processEnergyLi pf li).map Prod.fst = fullKeys := by
  simp only [processEnergyLi]
  split_ifs
  · exact insert_keeps pf h _ (by decide) _
  · exact insert_keeps pf h _ (by decide) _
  · exact h
  · exact h

theorem processEnergyList_lookup_ne (lis : List LiElem)
    (pf : List (String × Option String)) (k : String)
    (h1 : k ≠ "energy_consumption_rating")
    (h2 : k ≠ "energy_emissions_rating") :
    jLookup (processEnergyList pf lis) k = jLookup pf k := by
  induction lis generalizing pf with
  | nil => rfl
  | cons li rest ih =>
    show jLookup (processEnergyList (processEnergyLi pf li) rest) k = _
    rw [ih (processEnergyLi pf li), processEnergyLi_lookup_ne _ _ _ h1 h2]

theorem processEnergyList_map_fst (lis : List LiElem)
    (pf : List (String × Option String)) (h : pf.map Prod.fst = fullKeys) :
    (processEnergyList pf lis).map Prod.fst = fullKeys := by
  induction lis generalizing pf with
  | nil => exact h
  | cons li rest ih => exact ih _ (processEnergyLi_map_fst pf li h)

/-! #### Decomposing a successful extraction -/

/-- The stripped-before-matching texts of the basic-feature `li`s the
extractor iterates (empty when the details container or the `feature-one`
sub-section is absent). -/
def basicTexts (doc : PageDoc) : List String :=
  match doc.details with
  | some det =>
    match det.feature_one with
    | some (some lis) => lis.map LiElem.text
    | _ => []
  | none => []

/-- The texts of the first equipment list's `li`s. -/
def equipTexts (doc : PageDoc) : List String :=
  match doc.details with
  | some det =>
    match det.feature_two with
    | some ls =>
      if 0 < ls.length then (ls.getD 0 []).map LiElem.text else []
    | none => []
  | none => []

/-- The `li`s of the second equipment list (the energy certificate). -/
def energyLis (doc : PageDoc) : List LiElem :=
  match doc.details with
  | some det =>
    match det.feature_two with
    | some ls => if 1 < ls.length then ls.getD 1 [] else []
    | none => []
  | none => []

theorem extract_decomp (doc : PageDoc) (u : Option String)
    (pf : List (String × Option String))
    (h : extract_detailed_property_features doc u = some pf) :
    ∃ pf1, processBasicList (preDetails doc u) (basicTexts doc) = some pf1 ∧
      pf = processEnergyList (processEquipList pf1 (equipTexts doc))
        (energyLis doc) := by
  simp only [extract_detailed_property_features] at h
  cases hd : doc.details with
  | none =>
    rw [hd] at h
    injection h with h
    exact ⟨pf, by rw [basicTexts, hd, processBasicList, h],
      by rw [equipTexts, energyLis, hd]; rfl⟩
  | some det =>
    rw [hd] at h
    have h2 : (match basicStage det (preDetails doc u) with
        | none => none
        | some pf1 => some (equipStage det pf1)) = some pf := h
    cases hb : basicStage det (preDetails doc u) with
    | none => rw [hb] at h2; exact absurd h2 (by simp)
    | some pf1 =>
      rw [hb] at h2
      injection h2 with h
      refine ⟨pf1, ?_, ?_⟩
      · unfold basicStage at hb
        cases hf1 : det.feature_one with
        | none =>
          rw [hf1] at hb
          injection hb with hb
          have hbt : basicTexts doc = [] := by
            simp only [basicTexts, hd, hf1]
          rw [hbt, ← hb]
          rfl
        | some inner =>
          cases inner with
          | none => rw [hf1] at hb; simp at hb
          | some lis =>
            rw [hf1] at hb
            have hbt : basicTexts doc = lis.map LiElem.text := by
              simp only [basicTexts, hd, hf1]
            rw [hbt]
            exact hb
      · rw [← h]
        cases hf2 : det.feature_two with
        | none =>
          have he1 : equipTexts doc = [] := by
            simp only [equipTexts, hd, hf2]
          have he2 : energyLis doc = [] := by
            simp only [energyLis, hd, hf2]
          have hE : equipStage det pf1 = pf1 := by
            unfold equipStage; rw [hf2]
          rw [he1, he2, hE]
          rfl
        | some ls =>
          have he1 : equipTexts doc
              = if 0 < ls.length then (ls.getD 0 []).map LiElem.text
                else [] := by
            simp only [equipTexts, hd, hf2]
          have he2 : energyLis doc
              = if 1 < ls.length then ls.getD 1 [] else [] := by
            simp only [energyLis, hd, hf2]
          have hE : equipStage det pf1
              = (if 1 < ls.length
                 then processEnergyList
                   (if 0 < ls.length
                    then processEquipList pf1 ((ls.getD 0 []).map LiElem.text)
                    else pf1) (ls.getD 1 [])
                 else (if 0 < ls.length
                    then processEquipList pf1 ((ls.getD 0 []).map LiElem.text)
                    else pf1)) := by
            unfold equipStage; rw [hf2]
          rw [he1, he2, hE]
          by_cases hl0 : 0 < ls.length
          · by_cases hl1 : 1 < ls.length
            · rw [if_pos hl0, if_pos hl1, if_pos hl0, if_pos hl1]
            · rw [if_pos hl0, if_neg hl1, if_pos hl0, if_neg hl1]
              rfl
          · have hl1 : ¬1 < ls.length := by omega
            rw [if_neg hl0, if_neg hl1, if_neg hl0, if_neg hl1]
            rfl

/-! ### C8, C9, C10 -/

theorem basicFlagKws_ne_equip : ∀ p ∈ basicFlagKws,
    p.1 ≠ "garden" ∧ p.1 ≠ "swimming_pool" ∧
    p.1 ≠ "energy_consumption_rating" ∧ p.1 ≠ "energy_emissions_rating" := by
  decide

theorem equipFlagKws_facts : ∀ p ∈ equipFlagKws,
    p.1 ∉ basicKeys ∧ p.1 ∈ flagKeys ∧
    p.1 ≠ "energy_consumption_rating" ∧ p.1 ≠ "energy_emissions_rating" := by
  decide

theorem flag_ne_energy : ∀ f ∈ flagKeys,
    f ≠ "energy_consumption_rating" ∧ f ≠ "energy_emissions_rating" := by
  decide

/-- C8: in the Section-List Extractor's output every boolean-flag field is
`"No"` by default and flips to `"Yes"` only on its positive keyword: a flag
whose keywords occur in no relevant list item keeps the value `"No"` (first
two conjuncts, for the basic-feature flags and the equipment flags); in
particular with no `"Terraza"`/`"Trastero"`/`"garaje"` items, `terrace`,
`storage_room` and `parking` are all `"No"` (third conjunct); and every
boolean-flag field is always either `"No"` or `"Yes"` (last conjunct). -/
theorem claim_C8_boolean_flag_defaults (doc : PageDoc) (u : Option String)
    (pf : List (String × Option String))
    (hext : extract_detailed_property_features doc u = some pf) :
    (∀ f kws, (f, kws) ∈ basicFlagKws →
      (∀ t ∈ basicTexts doc, ∀ kw ∈ kws, pyContains (pyStrip t) kw = false) →
      jLookup pf f = some (some "No")) ∧
    (∀ f kws, (f, kws) ∈ equipFlagKws →
      (∀ t ∈ equipTexts doc, ∀ kw ∈ kws, pyContains (pyStrip t) kw = false) →
      jLookup pf f = some (some "No")) ∧
    ((∀ t ∈ basicTexts doc,
        pyContains (pyStrip t) "Terraza" = false ∧
        pyContains (pyStrip t) "Trastero" = false ∧
        pyContains (pyStrip t) "garaje" = false) →
      jLookup pf "terrace" = some (some "No") ∧
      jLookup pf "storage_room" = some (some "No") ∧
      jLookup pf "parking" = some (some "No")) ∧
    (∀ f ∈ flagKeys,
      jLookup pf f = some (some "No") ∨ jLookup pf f = some (some "Yes")) := by
  obtain ⟨pf1, hb, rfl⟩ := extract_decomp doc u pf hext
  have hpre : ∀ f ∈ flagKeys,
      jLookup (preDetails doc u) f = some (some "No") := by
    intro f hf
    fin_cases hf <;>
      (rw [preDetails_lookup _ _ _ (by decide) (by decide) (by decide)
        (by decide) (by decide)]; rfl)
  have part1 : ∀ f kws, (f, kws) ∈ basicFlagKws →
      (∀ t ∈ basicTexts doc, ∀ kw ∈ kws,
        pyContains (pyStrip t) kw = false) →
      jLookup (processEnergyList (processEquipList pf1 (equipTexts doc))
        (energyLis doc)) f = some (some "No") := by
    intro f kws hfk hno
    have hne := basicFlagKws_ne_equip (f, kws) hfk
    rw [processEnergyList_lookup_ne _ _ _ hne.2.2.1 hne.2.2.2,
      processEquipList_lookup_ne _ _ _ hne.1 hne.2.1,
      processBasicList_flag_keep _ _ _ _ _ hb hfk hno]
    exact hpre f (basicFlagKws_flags (f, kws) hfk)
  refine ⟨part1, ?_, ?_, ?_⟩
  · intro f kws hfk hno
    have hf := equipFlagKws_facts (f, kws) hfk
    rw [processEnergyList_lookup_ne _ _ _ hf.2.2.1 hf.2.2.2,
      processEquipList_flag_keep _ _ _ _ hfk hno,
      processBasicList_lookup_notin _ _ _ _ hb hf.1]
    exact hpre f hf.2.1
  · intro hno
    refine ⟨part1 "terrace" ["Terraza"] (by decide) ?_,
      part1 "storage_room" ["Trastero"] (by decide) ?_,
      part1 "parking" ["garaje"] (by decide) ?_⟩
    all_goals intro t ht kw hkw
    · rw [show kw = "Terraza" by simpa using hkw]
      exact (hno t ht).1
    · rw [show kw = "Trastero" by simpa using hkw]
      exact (hno t ht).2.1
    · rw [show kw = "garaje" by simpa using hkw]
      exact (hno t ht).2.2
  · intro f hf
    have h1 := processBasicList_flag_range _ _ _ _ hb hf (Or.inl (hpre f hf))
    have h2 := processEquipList_flag_range (equipTexts doc) pf1 f hf h1
    have hne := flag_ne_energy f hf
    rw [processEnergyList_lookup_ne _ _ _ hne.1 hne.2]
    exact h2

/-- Witness for C8 on a concrete document: one basic item (`"Terraza"`
absent) plus one equipment item (`"Piscina"`) — `terrace`, `storage_room`
and `parking` stay `"No"`, `swimming_pool` ends `"Yes"`-or-`"No"` valued. -/
theorem claim_C8_witness :
    jLookup ((extract_detailed_property_features
        ⟨none, none, none, none, none, none, none,
         some ⟨some (some [⟨"3 habitaciones", []⟩]),
           some [[⟨"Piscina", []⟩]]⟩⟩ none).getD []) "terrace"
      = some (some "No") ∧
    (jLookup ((extract_detailed_property_features
        ⟨none, none, none, none, none, none, none,
         some ⟨some (some [⟨"3 habitaciones", []⟩]),
           some [[⟨"Piscina", []⟩]]⟩⟩ none).getD []) "swimming_pool"
      = some (some "No") ∨
     jLookup ((extract_detailed_property_features
        ⟨none, none, none, none, none, none, none,
         some ⟨some (some [⟨"3 habitaciones", []⟩]),
           some [[⟨"Piscina", []⟩]]⟩⟩ none).getD []) "swimming_pool"
      = some (some "Yes")) := by
  have h := claim_C8_boolean_flag_defaults
    ⟨none, none, none, none, none, none, none,
     some ⟨some (some [⟨"3 habitaciones", []⟩]),
       some [[⟨"Piscina", []⟩]]⟩⟩ none
    ((extract_detailed_property_features
        ⟨none, none, none, none, none, none, none,
         some ⟨some (some [⟨"3 habitaciones", []⟩]),
           some [[⟨"Piscina", []⟩]]⟩⟩ none).getD []) (by rfl)
  exact ⟨h.1 "terrace" ["Terraza"] (by decide) (by decide),
    h.2.2.2 "swimming_pool" (by decide)⟩

/-- C9: a basic-feature item containing both `"m² construidos"` and
`"m² útiles"` (and none of the earlier branch triggers) is split on commas;
the part carrying `"m² construidos"` sets `size_built_sqm` and the part
carrying `"m² útiles"` sets `size_useful_sqm`, each to the numeric text
before `" m²"`, normalized by first removing `"."` and then replacing `","`
with `"."`. -/
theorem claim_C9_combined_sizes (pf : List (String × Option String))
    (t p1 p2 : String)
    (hc1 : pyContains (pyStrip t) "Casa o chalet independiente" = false)
    (hc2 : pyContains (pyStrip t) "planta" = false)
    (hc3 : pyContains (pyStrip t) "plantas" = false)
    (hcb : pyContains (pyStrip t) "m² construidos" = true)
    (hcu : pyContains (pyStrip t) "m² útiles" = true)
    (hsplit : pySplit (pyStrip t) ',' = [p1, p2])
    (hp1u : pyContains p1 "m² útiles" = false)
    (hp1b : pyContains p1 "m² construidos" = true)
    (hp2u : pyContains p2 "m² útiles" = true) :
    processBasicItem pf t
      = some (dictInsert (dictInsert pf "size_built_sqm"
          (some (pyReplace (pyReplace (pyStrip (pyReplace
            ((pySplitStr p1 " m²").getD 0 "") " m² construidos" "")) "." "")
            "," ".")))
          "size_useful_sqm"
          (some (pyReplace (pyReplace (pyStrip (pyReplace
            ((pySplitStr p2 " m²").getD 0 "") " m² útiles" "")) "." "")
            "," "."))) := by
  unfold processBasicItem processBasicItemText
  have hn1 : ¬(pyContains (pyStrip t) "Casa o chalet independiente" = true) := by
    rw [hc1]; decide
  have hn2 : ¬((pyContains (pyStrip t) "planta" &&
      !pyContains (pyStrip t) "plantas") = true) := by
    rw [hc2]; simp
  have hn3 : ¬(pyContains (pyStrip t) "plantas" = true) := by
    rw [hc3]; decide
  have hp4 : (pyContains (pyStrip t) "m² construidos" &&
      pyContains (pyStrip t) "m² útiles") = true := by
    rw [hcb, hcu]; rfl
  rw [if_neg hn1, if_neg hn2, if_neg hn3, if_pos hp4, hsplit]
  show some (sizeStep (sizeStep pf p1) p2) = _
  have hs1 : sizeStep pf p1 = dictInsert pf "size_built_sqm"
      (some (pyReplace (pyReplace (pyStrip (pyReplace
        ((pySplitStr p1 " m²").getD 0 "") " m² construidos" "")) "." "")
        "," ".")) := by
    unfold sizeStep
    rw [if_neg (by rw [hp1u]; decide), if_pos hp1b]
  have hs2 : ∀ d, sizeStep d p2 = dictInsert d "size_useful_sqm"
      (some (pyReplace (pyReplace (pyStrip (pyReplace
        ((pySplitStr p2 " m²").getD 0 "") " m² útiles" "")) "." "")
        "," ".")) := by
    intro d
    unfold sizeStep
    rw [if_pos hp2u]
  rw [hs1, hs2]

/-- Witness for C9 at the documented example: the item
`"120 m² construidos, 100 m² útiles"` yields `size_built_sqm = "120"` and
`size_useful_sqm = "100"`. -/
theorem claim_C9_witness :
    processBasicItem (initFeatures none) "120 m² construidos, 100 m² útiles"
      = some (dictInsert (dictInsert (initFeatures none) "size_built_sqm"
          (some (pyReplace (pyReplace (pyStrip (pyReplace
            ((pySplitStr "120 m² construidos" " m²").getD 0 "")
              " m² construidos" "")) "." "") "," ".")))
          "size_useful_sqm"
          (some (pyReplace (pyReplace (pyStrip (pyReplace
            ((pySplitStr " 100 m² útiles" " m²").getD 0 "")
              " m² útiles" "")) "." "") "," "."))) ∧
    jLookup ((processBasicItem (initFeatures none)
        "120 m² construidos, 100 m² útiles").getD []) "size_built_sqm"
      = some (some "120") ∧
    jLookup ((processBasicItem (initFeatures none)
        "120 m² construidos, 100 m² útiles").getD []) "size_useful_sqm"
      = some (some "100") := by
  refine ⟨claim_C9_combined_sizes (initFeatures none)
    "120 m² construidos, 100 m² útiles" "120 m² construidos"
    " 100 m² útiles" (by decide) (by decide) (by decide) (by decide)
    (by decide) (by rfl) (by decide) (by decide) (by decide), ?_, ?_⟩
  · rfl
  · rfl

/-- C10 counterexample: the fixed key set of every returned mapping has 25
entries, not the 24 the claim counts (the claim's own enumeration lists 25
field names). -/
theorem claim_C10_counterexample :
    (((extract_detailed_property_features
        ⟨none, none, none, none, none, none, none, none⟩ none).getD []).map
      Prod.fst).length = 25 := by rfl

/-- C10 amended: every mapping the Section-List Extractor returns has
exactly the same fixed set of keys — the 25 (not 24) declared fields, in
declaration order — extraction never adds or removes a key. -/
theorem claim_C10_fixed_key_set (doc : PageDoc) (u : Option String)
    (pf : List (String × Option String))
    (hext : extract_detailed_property_features doc u = some pf) :
    pf.map Prod.fst = fullKeys := by
  obtain ⟨pf1, hb, rfl⟩ := extract_decomp doc u pf hext
  exact processEnergyList_map_fst _ _ (processEquipList_map_fst _ _
    (processBasicList_map_fst _ _ _ hb (preDetails_map_fst doc u)))

/-- Witness for C10 on the empty document. -/
theorem claim_C10_witness :
    (preDetails ⟨none, none, none, none, none, none, none, none⟩ none).map
      Prod.fst = fullKeys :=
  claim_C10_fixed_key_set ⟨none, none, none, none, none, none, none, none⟩
    none (preDetails ⟨none, none, none, none, none, none, none, none⟩ none)
    (by rfl)

end IdealistaExtraction
